import Mathlib

/-!
The logging pipeline of logz, package `internal/logger`.

A shallow embedding of `internal/logger/logger.go` and `internal/logger/writer.go`.

* A Go `map[string]T` is represented by the list of its entries (`GoMap`).
  `m[k]` reads the first entry stored under `k`, an assignment `m[k] = v` replaces the
  entry of `k`, and `for k, v := range m` visits the entries one after the other. The
  lemmas on `mergeContext` depend on a map only through what `get` reads from it.
* The effects of `Logger.log` (clock read, caller capture, write, fallback report,
  notifier calls, metric increments, process exit) are recorded, in order, in the
  `trace` of a `World`, next to the state of the metrics registry.
-/

namespace Logz

/-! ## Go maps -/

/-- A Go map with string keys, given by its entries. -/
abbrev GoMap (V : Type) := List (String × V)

namespace GoMap

variable {V : Type}

/-- The two-valued read `v, ok := m[k]`. -/
def get (m : GoMap V) (k : String) : Option V :=
  match m with
  | [] => none
  | (k1, v) :: rest => if k1 = k then some v else get rest k

/-- The plain read `m[k]`, which yields the zero value for an absent key. -/
def index [Inhabited V] (m : GoMap V) (k : String) : V :=
  (m.get k).getD default

/-- The empty map `make(map[string]T)`. -/
def empty : GoMap V := []

/-- The builtin `delete(m, k)`. -/
def delete (m : GoMap V) (k : String) : GoMap V :=
  match m with
  | [] => []
  | (k1, v) :: rest => if k1 = k then delete rest k else (k1, v) :: delete rest k

/-- The assignment `m[k] = v`. -/
def set (m : GoMap V) (k : String) (v : V) : GoMap V :=
  (k, v) :: m.delete k

/-- The key set of the map. -/
def keys (m : GoMap V) : List String :=
  (m.map Prod.fst).dedup

/-- The builtin `len(m)`: the number of keys. -/
def len (m : GoMap V) : Nat :=
  m.keys.length

/-- The loop `for k, v := range m { acc = body k v acc }`. Go leaves the order of the
visit open; here the entries are taken from the last to the first, so that a loop of
assignments ends with the values `get` reads. -/
def range {σ : Type} (m : GoMap V) (body : String → V → σ → σ) (acc : σ) : σ :=
  m.foldr (fun p s => body p.1 p.2 s) acc

end GoMap

/-! ## Log levels -/

/-- Modelled from the spec: the declaration of `LogLevel` is not among the sources. The
code converts levels with `string(level)` and uses them as map keys, so a level is a
string. -/
abbrev LogLevel := String

/-- Modelled from the spec: the level constant `DEBUG` (its declaration is not among the
sources). -/
def DEBUG : LogLevel := "DEBUG"

/-- Modelled from the spec: the level constant `NOTICE`. -/
def NOTICE : LogLevel := "NOTICE"

/-- Modelled from the spec: the level constant `INFO` (its declaration is not among the
sources). -/
def INFO : LogLevel := "INFO"

/-- Modelled from the spec: the level constant `SUCCESS`. -/
def SUCCESS : LogLevel := "SUCCESS"

/-- Modelled from the spec: the level constant `WARN` (its declaration is not among the
sources). -/
def WARN : LogLevel := "WARN"

/-- Modelled from the spec: the level constant `ERROR` (its declaration is not among the
sources). -/
def ERROR : LogLevel := "ERROR"

/-- Modelled from the spec: the level constant `FATAL` (its declaration is not among the
sources). -/
def FATAL : LogLevel := "FATAL"

/-- The table `logLevels` of `logger.go`: level to numeric severity. -/
def logLevels : GoMap Int :=
  [(DEBUG, 1), (INFO, 2), (WARN, 3), (ERROR, 4), (FATAL, 5)]

/-! ## Metadata merge -/

/-- The function `mergeContext` of `logger.go`: copy `global`, then `local`, into a
fresh map. -/
def mergeContext {V : Type} (global localCtx : GoMap V) : GoMap V :=
  let merged : GoMap V := GoMap.empty
  let merged := global.range (fun k v m => m.set k v) merged
  let merged := localCtx.range (fun k v m => m.set k v) merged
  merged

/-! ## Entries, writers and the logger state -/

/-- An instant (`time.Time`), as a count of time units since the epoch. -/
abbrev Time := Int

/-- Modelled from the spec: the entry record (`LogEntry`; its declaration is not among the
sources), with the fields the spec lists for an Entry: timestamp, level, severity,
message, caller, context and metadata. -/
structure LogEntry (V : Type) where
  Timestamp : Time
  Level : LogLevel
  Message : String
  Severity : Int
  Caller : String
  Context : String
  Metadata : GoMap V
deriving DecidableEq

namespace LogEntry

variable {V : Type}

/-- Modelled from the spec: the builder step `WithLevel`. -/
def WithLevel (e : LogEntry V) (level : LogLevel) : LogEntry V :=
  { e with Level := level }

/-- Modelled from the spec: the builder step `WithMessage`. -/
def WithMessage (e : LogEntry V) (msg : String) : LogEntry V :=
  { e with Message := msg }

/-- Modelled from the spec: the builder step `WithSeverity`. -/
def WithSeverity (e : LogEntry V) (severity : Int) : LogEntry V :=
  { e with Severity := severity }

/-- Modelled from the spec: `AddMetadata` stores one key of the metadata mapping
(keys unique, the last write wins). -/
def AddMetadata (e : LogEntry V) (k : String) (v : V) : LogEntry V :=
  { e with Metadata := e.Metadata.set k v }

end LogEntry

/-- Modelled from the spec: `NewLogEntry` (not among the sources) starts an entry with
empty fields and an empty metadata mapping. -/
def NewLogEntry {V : Type} : LogEntry V :=
  { Timestamp := 0, Level := "", Message := "", Severity := 0, Caller := "", Context := "",
    Metadata := GoMap.empty }

/-- The interface `LogWriter` as `Logger.log` sees it: what `Write` returns for an entry,
`none` standing for a nil error. -/
structure LogWriter (V : Type) where
  Write : LogEntry V → Option String

/-- The struct `Logger`; `N` is the type of the notifier objects. -/
structure Logger (N V : Type) where
  level : LogLevel
  writer : LogWriter V
  notifiers : List N
  metadata : GoMap V

/-- Modelled from the spec: the metrics sink (`services.PrometheusManager`, not among the
sources), a counter registry with an enabled flag. -/
structure PrometheusManager where
  enabled : Bool
  counters : GoMap Int

namespace PrometheusManager

/-- Modelled from the spec: whether the metrics sink is enabled. -/
def IsEnabled (pm : PrometheusManager) : Bool := pm.enabled

/-- Modelled from the spec: `IncrementMetric(name, delta)` adds `delta` to the counter
`name`. -/
def IncrementMetric (pm : PrometheusManager) (name : String) (delta : Int) :
    PrometheusManager :=
  { pm with counters := pm.counters.set name (pm.counters.index name + delta) }

/-- The current value of a counter. -/
def counter (pm : PrometheusManager) (name : String) : Int := pm.counters.index name

end PrometheusManager

/-- One observable effect of a log call. -/
inductive Event (N V : Type) where
  /-- The clock was read: `time.Now()`. -/
  | clock : Event N V
  /-- The caller was captured: `getCallerInfo`. -/
  | callerInfo : Event N V
  /-- The call `l.writer.Write(entry)`. -/
  | write : LogEntry V → Event N V
  /-- The fallback report `log.Printf("Erro ao escrever log: %v", err)`. -/
  | report : String → Event N V
  /-- The call `notifier.Notify(entry)`. -/
  | notify : N → LogEntry V → Event N V
  /-- The call `pm.IncrementMetric(name, delta)`. -/
  | metric : String → Int → Event N V
  /-- The call `os.Exit(code)`. -/
  | exit : Int → Event N V
deriving DecidableEq

/-- The world a log call acts on: the effects so far, oldest first, and the metrics
sink. -/
structure World (N V : Type) where
  trace : List (Event N V)
  pm : PrometheusManager

namespace World

variable {N V : Type}

/-- Record one effect. -/
def emit (w : World N V) (ev : Event N V) : World N V :=
  { w with trace := w.trace ++ [ev] }

/-- The call `pm.IncrementMetric(name, delta)` on the process-wide sink. -/
def IncrementMetric (w : World N V) (name : String) (delta : Int) : World N V :=
  { trace := w.trace ++ [Event.metric name delta], pm := w.pm.IncrementMetric name delta }

end World

/-- What the runtime hands to one log call: the clock and the captured caller. -/
structure CallEnv where
  now : Time
  caller : String

namespace Logger

variable {N V : Type}

/-- The method `Logger.SetMetadata`. -/
def SetMetadata (l : Logger N V) (key : String) (value : V) : Logger N V :=
  { l with metadata := l.metadata.set key value }

/-- The method `Logger.shouldLog`. -/
def shouldLog (l : Logger N V) (level : LogLevel) : Bool :=
  decide (logLevels.index level ≥ logLevels.index l.level)

/-- The entry `Logger.log` builds for an accepted call. -/
def buildEntry (l : Logger N V) (env : CallEnv) (level : LogLevel) (msg : String)
    (ctx : GoMap V) : LogEntry V :=
  let timestamp := env.now
  let caller := env.caller
  let entry := ((NewLogEntry.WithLevel level).WithMessage msg).WithSeverity
    (logLevels.index level)
  let entry := { entry with Timestamp := timestamp }
  let entry := { entry with Caller := caller }
  let finalContext := mergeContext l.metadata ctx
  finalContext.range (fun k v e => e.AddMetadata k v) entry

/-- The method `Logger.log`. -/
def log (l : Logger N V) (env : CallEnv) (level : LogLevel) (msg : String) (ctx : GoMap V)
    (w : World N V) : World N V :=
  if !l.shouldLog level then w
  else
    let w := (w.emit Event.clock).emit Event.callerInfo
    let entry := l.buildEntry env level msg ctx
    let w := w.emit (Event.write entry)
    let w := match l.writer.Write entry with
      | some err => w.emit (Event.report err)
      | none => w
    let w := l.notifiers.foldl (fun w notifier => w.emit (Event.notify notifier entry)) w
    let w := if w.pm.IsEnabled then
        (w.IncrementMetric "logs_total" 1).IncrementMetric ("logs_total_" ++ level) 1
      else w
    if level = FATAL then w.emit (Event.exit 1) else w

/-- The method `Logger.Debug`. -/
def Debug (l : Logger N V) (env : CallEnv) (msg : String) (ctx : GoMap V) (w : World N V) :
    World N V := l.log env DEBUG msg ctx w

/-- The method `Logger.Info`. -/
def Info (l : Logger N V) (env : CallEnv) (msg : String) (ctx : GoMap V) (w : World N V) :
    World N V := l.log env INFO msg ctx w

/-- The method `Logger.Warn`. -/
def Warn (l : Logger N V) (env : CallEnv) (msg : String) (ctx : GoMap V) (w : World N V) :
    World N V := l.log env WARN msg ctx w

/-- The method `Logger.Error`. -/
def Error (l : Logger N V) (env : CallEnv) (msg : String) (ctx : GoMap V) (w : World N V) :
    World N V := l.log env ERROR msg ctx w

/-- The method `Logger.Fatal`. -/
def Fatal (l : Logger N V) (env : CallEnv) (msg : String) (ctx : GoMap V) (w : World N V) :
    World N V := l.log env FATAL msg ctx w

end Logger

/-! ## Reading a trace -/

section TraceViews

variable {N V : Type}

/-- The entries handed to `Writer.Write`, in order. -/
def writesOf (t : List (Event N V)) : List (LogEntry V) :=
  t.filterMap (fun ev => match ev with
    | Event.write e => some e
    | _ => none)

/-- The `Notify` calls, in order: which notifier, with which entry. -/
def notifiesOf (t : List (Event N V)) : List (N × LogEntry V) :=
  t.filterMap (fun ev => match ev with
    | Event.notify n e => some (n, e)
    | _ => none)

/-- The `IncrementMetric` calls, in order: which counter, by how much. -/
def metricsOf (t : List (Event N V)) : List (String × Int) :=
  t.filterMap (fun ev => match ev with
    | Event.metric name delta => some (name, delta)
    | _ => none)

/-- The fallback reports, in order. -/
def reportsOf (t : List (Event N V)) : List String :=
  t.filterMap (fun ev => match ev with
    | Event.report err => some err
    | _ => none)

/-- The exit codes of the `os.Exit` calls. -/
def exitsOf (t : List (Event N V)) : List Int :=
  t.filterMap (fun ev => match ev with
    | Event.exit code => some code
    | _ => none)

/-- Whether an event is a fallback report. -/
def isReport (ev : Event N V) : Bool :=
  match ev with
  | Event.report _ => true
  | _ => false

/-- How often the caller was captured. -/
def callerCaptures (t : List (Event N V)) : Nat :=
  (t.filter (fun ev => match ev with
    | Event.callerInfo => true
    | _ => false)).length

/-- The report a failed write leaves, as a list of events. -/
def reportEvents (r : Option String) : List (Event N V) :=
  match r with
  | some err => [Event.report err]
  | none => []

/-- The events of the metrics step. -/
def metricEvents (enabled : Bool) (level : LogLevel) : List (Event N V) :=
  if enabled then [Event.metric "logs_total" 1, Event.metric ("logs_total_" ++ level) 1]
  else []

/-- The events of the exit step. -/
def exitEvents (level : LogLevel) : List (Event N V) :=
  if level = FATAL then [Event.exit 1] else []

end TraceViews

/-! ## The text formatter -/

/-- What `TextFormatter.Format` takes from outside the repository: the environment
variable `LOGZ_NO_COLOR`, the operating system name `runtime.GOOS`, and the library
functions `Time.Format(time.RFC3339)` and `json.Marshal` (`none` for an error). -/
structure Platform (V : Type) where
  LOGZ_NO_COLOR : String
  GOOS : String
  formatRFC3339 : Time → String
  jsonMarshal : GoMap V → Option String

/-- The test `os.Getenv("LOGZ_NO_COLOR") != "" || runtime.GOOS == "windows"`. -/
def Platform.noColor {V : Type} (p : Platform V) : Bool :=
  p.LOGZ_NO_COLOR != "" || p.GOOS == "windows"

/-- The function `formatMetadata` of `writer.go`. -/
def formatMetadata {V : Type} (p : Platform V) (metadata : GoMap V) : String :=
  if metadata.len = 0 then ""
  else
    match p.jsonMarshal metadata with
    | none => ""
    | some data => data

/-- The call `strings.Repeat(" ", n)`. -/
def repeatSpace (n : Nat) : String := String.mk (List.replicate n ' ')

/-- The method `TextFormatter.Format` of `writer.go`; it returns the pair
`(string, error)`, where `none` is a nil error. -/
def TextFormatter.Format {V : Type} (p : Platform V) (entry : LogEntry V) :
    String × Option String :=
  let noColor := p.noColor
  let ent := entry
  let (icon, levelStr) : String × String :=
    if noColor then ("", ent.Level)
    else
      let reset := "\x1b[0m"
      let (color, icon) : String × String :=
        if ent.Level = DEBUG then ("\x1b[34m", "🐛")
        else if ent.Level = INFO then ("\x1b[32m", "ℹ️")
        else if ent.Level = WARN then ("\x1b[33m", "⚠️")
        else if ent.Level = ERROR then ("\x1b[31m", "❌")
        else if ent.Level = FATAL then ("\x1b[35m", "💀")
        else ("", "")
      (color ++ icon ++ reset, color ++ ent.Level ++ reset)
  let contextMsg := if ent.Context ≠ "" then "(Context: " ++ ent.Context ++ ")" else ""
  let metadata :=
    if ent.Metadata.len > 0 then
      "\n" ++ repeatSpace ((p.formatRFC3339 entry.Timestamp).utf8ByteSize + 3) ++ " "
        ++ formatMetadata p entry.Metadata
    else ""
  ("[" ++ p.formatRFC3339 entry.Timestamp ++ "] " ++ icon ++ " " ++ levelStr
    ++ " - " ++ entry.Message ++ " " ++ contextMsg ++ metadata, none)

/-! ### Removing the decorations of a rendered line

The functions below follow the words of the specification ("with ANSI escape sequences
and icon glyphs stripped"); nothing in the sources removes decorations. The decorations
are those `TextFormatter.Format` adds for the level of the entry: the colour code, the
icon glyph and the reset at the icon position, and the colour code and the reset around
the level name. -/

/-- The ANSI escape sequence that the switch of `TextFormatter.Format` picks as the
colour of a level. -/
def levelColor (level : LogLevel) : String :=
  if level = DEBUG then "\x1b[34m"
  else if level = INFO then "\x1b[32m"
  else if level = WARN then "\x1b[33m"
  else if level = ERROR then "\x1b[31m"
  else if level = FATAL then "\x1b[35m"
  else ""

/-- The icon glyph that the switch of `TextFormatter.Format` picks for a level. -/
def levelIcon (level : LogLevel) : String :=
  if level = DEBUG then "🐛"
  else if level = INFO then "ℹ️"
  else if level = WARN then "⚠️"
  else if level = ERROR then "❌"
  else if level = FATAL then "💀"
  else ""

/-- The ANSI escape sequence that ends a colour. -/
def ansiReset : String := "\x1b[0m"

/-- A run of characters without its first characters `pre`, when it starts with them. -/
def dropLeading (pre cs : List Char) : List Char :=
  if pre.isPrefixOf cs then cs.drop pre.length else cs

/-- Remove the decorations from the characters of a rendered line: keep the first `skip`
characters (the bracketed timestamp and the blank after it), remove the colour code, the
icon glyph and the reset, keep the blank, remove the colour code, keep the `levelLen`
characters of the level name, remove the reset, and keep all the rest. -/
def removeDecorationsAt (skip : Nat) (color glyph : List Char) (levelLen : Nat)
    (cs : List Char) : List Char :=
  let head := cs.take skip
  let rest := dropLeading ansiReset.data (dropLeading glyph (dropLeading color (cs.drop skip)))
  let blank := rest.take 1
  let rest := dropLeading color (rest.drop 1)
  let name := rest.take levelLen
  let rest := dropLeading ansiReset.data (rest.drop levelLen)
  head ++ blank ++ name ++ rest

/-- The rendered line of an entry with the ANSI escape sequences and the icon glyph of
its level removed. -/
def stripDecorations {V : Type} (p : Platform V) (entry : LogEntry V) (line : String) :
    String :=
  String.mk (removeDecorationsAt ((p.formatRFC3339 entry.Timestamp).length + 3)
    (levelColor entry.Level).data (levelIcon entry.Level).data entry.Level.length line.data)

/-! ## Formatters, the default writer and the constructor -/

/-- The interface `LogFormatter`: `Format` returns the pair `(string, error)`. -/
structure LogFormatter (V : Type) where
  Format : LogEntry V → String × Option String

/-- The method `JSONFormatter.Format` of `writer.go`; `marshal` is the library function
`json.Marshal` on entries, with its result `(data, error)`. -/
def JSONFormatter.Format {V : Type} (marshal : LogEntry V → String × Option String)
    (entry : LogEntry V) : String × Option String :=
  match marshal entry with
  | (_, some err) => ("", some err)
  | (data, none) => (data, none)

/-- The interface `io.Writer` over a sink of type `σ`: `Write` takes the sink and the
text, and returns the sink afterwards and the error. -/
structure IoWriter (σ : Type) where
  Write : σ → String → σ × Option String

/-- The call `fmt.Fprintln(out, a)` with one string operand: one `Write` of the operand
followed by a newline. -/
def Fprintln {σ : Type} (out : IoWriter σ) (sink : σ) (a : String) : σ × Option String :=
  out.Write sink (a ++ "\n")

/-- The struct `DefaultWriter`. -/
structure DefaultWriter (σ V : Type) where
  out : IoWriter σ
  formatter : LogFormatter V

/-- The function `NewDefaultWriter`. -/
def NewDefaultWriter {σ V : Type} (out : IoWriter σ) (formatter : LogFormatter V) :
    DefaultWriter σ V :=
  { out := out, formatter := formatter }

/-- The method `DefaultWriter.Write`: the sink afterwards and the returned error. -/
def DefaultWriter.Write {σ V : Type} (w : DefaultWriter σ V) (entry : LogEntry V) (sink : σ) :
    σ × Option String :=
  match w.formatter.Format entry with
  | (_, some err) => (sink, some err)
  | (formatted, none) => Fprintln w.out sink formatted

/-- The method `DefaultWriter.GetFormatter`. -/
def DefaultWriter.GetFormatter {σ V : Type} (w : DefaultWriter σ V) : LogFormatter V :=
  w.formatter

/-- A sink that keeps all the text written to it, in order, and never fails: the content
of a file opened for appending. -/
def appendSink : IoWriter String :=
  { Write := fun content text => (content ++ text, none) }

/-- Modelled from the spec: the notifier `NewExternalNotifier` builds (not among the
sources), with its two delivery targets. -/
structure ExternalNotifier where
  externalURL : String
  zmqEndpoint : String
deriving DecidableEq

/-- Modelled from the spec: `NewExternalNotifier` (not among the sources) keeps the two
targets it is given. -/
def NewExternalNotifier (externalURL zmqEndpoint : String) : ExternalNotifier :=
  { externalURL := externalURL, zmqEndpoint := zmqEndpoint }

/-- What `NewLogger` takes from outside: the standard output, the result of
`os.OpenFile` on a path (`Except.error` for a failure), the two formatters as they behave on
this host, and the view of a `DefaultWriter` through the interface `LogWriter`. -/
structure Host (σ V : Type) where
  Stdout : IoWriter σ
  OpenFile : String → Except String (IoWriter σ)
  jsonFormatter : LogFormatter V
  textFormatter : LogFormatter V
  asLogWriter : DefaultWriter σ V → LogWriter V

/-- The function `NewLogger` of `logger.go`: the logger it builds and the lines it
prints. -/
def NewLogger {σ V : Type} (host : Host σ V) (level : LogLevel) (format : String)
    (outputPath externalURL zmqEndpoint discordWebhook : String) :
    Logger ExternalNotifier V × List String :=
  let (out, printed) : IoWriter σ × List String :=
    if outputPath = "stdout" then (host.Stdout, [])
    else
      match host.OpenFile outputPath with
      | Except.ok file => (file, [])
      | Except.error err =>
        (host.Stdout,
          ["Erro ao abrir arquivo de log: " ++ err ++ "\nRedirecionando para stdout..."])
  let formatter := if format = "json" then host.jsonFormatter else host.textFormatter
  let writer := NewDefaultWriter out formatter
  let notifiers : List ExternalNotifier := []
  let notifiers :=
    if externalURL ≠ "" ∨ zmqEndpoint ≠ "" then
      notifiers ++ [NewExternalNotifier externalURL zmqEndpoint]
    else notifiers
  ({ level := level, writer := host.asLogWriter writer, notifiers := notifiers,
     metadata := GoMap.empty }, printed)

/-- The function `ParseLogLevel` of `logger.go`. -/
def ParseLogLevel (level : String) : LogLevel :=
  if level = "debug" then DEBUG
  else if level = "info" then INFO
  else if level = "warn" then WARN
  else if level = "error" then ERROR
  else if level = "fatal" then FATAL
  else INFO

/-! ## Sample values -/

/-- A writer whose `Write` succeeds. -/
def sampleWriter : LogWriter String := { Write := fun _ => none }

/-- A writer whose `Write` fails. -/
def failingWriter : LogWriter String := { Write := fun _ => some "disk full" }

/-- A logger with threshold INFO, global metadata `env = prod` and two notifiers. -/
def sampleLogger : Logger Nat String :=
  { level := INFO, writer := sampleWriter, notifiers := [7, 9],
    metadata := [("env", "prod")] }

/-- The same logger over a writer that fails. -/
def brokenLogger : Logger Nat String :=
  { level := INFO, writer := failingWriter, notifiers := [7, 9],
    metadata := [("env", "prod")] }

/-- A clock reading and a captured caller. -/
def sampleEnv : CallEnv := { now := 1700000000, caller := "cli/main.go:10 main.main" }

/-- A world with no effect yet and an enabled, empty metrics sink. -/
def sampleWorld : World Nat String := { trace := [], pm := { enabled := true, counters := [] } }

/-- A platform on which colours are on: no `LOGZ_NO_COLOR`, not Windows. -/
def colorPlatform : Platform String :=
  { LOGZ_NO_COLOR := "", GOOS := "linux", formatRFC3339 := fun _ => "2023-11-14T22:13:20Z",
    jsonMarshal := fun _ => some "[metadata]" }

/-- The same platform with `LOGZ_NO_COLOR` set. -/
def plainPlatform : Platform String :=
  { colorPlatform with LOGZ_NO_COLOR := "1" }

/-- An entry whose message itself starts with an icon glyph. -/
def crossEntry : LogEntry String :=
  { Timestamp := 1700000000, Level := INFO, Message := "❌ build failed", Severity := 2,
    Caller := "", Context := "", Metadata := [] }

/-- An entry of plain text, with a context and one key of metadata. -/
def plainEntry : LogEntry String :=
  { Timestamp := 1700000000, Level := WARN, Message := "disk almost full", Severity := 3,
    Caller := "", Context := "job-7", Metadata := [("k", "v")] }

/-- A host whose files always open, with sample formatters; the writer is seen on an
empty sink. -/
def sampleHost : Host String String :=
  { Stdout := appendSink,
    OpenFile := fun _ => Except.ok appendSink,
    jsonFormatter := { Format := JSONFormatter.Format (fun e => (e.Message, none)) },
    textFormatter := { Format := TextFormatter.Format colorPlatform },
    asLogWriter := fun w => { Write := fun e => (w.Write e "").2 } }

/-- A sample of metadata values: texts, which `json.Marshal` renders, and channels, which
it rejects. -/
inductive SampleValue where
  | text : String → SampleValue
  | channel : SampleValue
deriving DecidableEq

/-- A sample of `json.Marshal` on maps of sample values: an error when a value is a
channel, and otherwise the JSON object of the entries (keys and texts taken as they
are). -/
def sampleMarshal (m : GoMap SampleValue) : Option String :=
  if m.any (fun kv => decide (kv.2 = SampleValue.channel)) then none
  else
    some ("\x7b" ++ ",".intercalate (m.map (fun kv =>
      match kv.2 with
      | SampleValue.text t => "\"" ++ kv.1 ++ "\":\"" ++ t ++ "\""
      | SampleValue.channel => "")) ++ "\x7d")

/-- A platform without colours over the sample values. -/
def chanPlatform : Platform SampleValue :=
  { LOGZ_NO_COLOR := "1", GOOS := "linux",
    formatRFC3339 := fun _ => "2023-11-14T22:13:20Z", jsonMarshal := sampleMarshal }

/-- An entry whose metadata holds a value that `json.Marshal` rejects. -/
def chanEntry : LogEntry SampleValue :=
  { Timestamp := 1700000000, Level := INFO, Message := "started", Severity := 2,
    Caller := "", Context := "", Metadata := [("done", SampleValue.channel)] }

/-- An entry with a context and one key of text metadata. -/
def textEntry : LogEntry SampleValue :=
  { Timestamp := 1700000000, Level := INFO, Message := "started", Severity := 2,
    Caller := "", Context := "job-7", Metadata := [("k", SampleValue.text "v")] }

/-- A formatter that always fails. -/
def failingFormatter : LogFormatter String :=
  { Format := JSONFormatter.Format (fun _ => ("", some "json: unsupported type")) }

/-- A sample of `json.Marshal` on entries of sample values: the error of the metadata
when it has one, and otherwise a JSON object with the level, the message and the
metadata. -/
def sampleMarshalEntry (e : LogEntry SampleValue) : String × Option String :=
  match sampleMarshal e.Metadata with
  | none => ("", some "json: unsupported type: chan")
  | some md =>
    ("\x7b\"level\":\"" ++ e.Level ++ "\",\"message\":\"" ++ e.Message ++ "\",\"metadata\":"
      ++ md ++ "\x7d", none)

/-- An entry whose metadata holds a text next to a value that `json.Marshal` rejects. -/
def mixedEntry : LogEntry SampleValue :=
  { Timestamp := 1700000000, Level := INFO, Message := "started", Severity := 2,
    Caller := "", Context := "",
    Metadata := [("k", SampleValue.text "v"), ("done", SampleValue.channel)] }

/-! ## Lemmas on Go maps -/

namespace GoMap

variable {V : Type}

theorem get_empty (k : String) : (GoMap.empty : GoMap V).get k = none := rfl

theorem get_cons (k1 : String) (v : V) (rest : GoMap V) (k : String) :
    GoMap.get ((k1, v) :: rest) k = if k1 = k then some v else GoMap.get rest k := rfl

theorem get_delete (m : GoMap V) (k k1 : String) :
    (m.delete k).get k1 = if k = k1 then none else m.get k1 := by
  induction m with
  | nil => simp [delete, get]
  | cons p rest ih =>
    obtain ⟨a, b⟩ := p
    by_cases hak : a = k
    · subst hak
      by_cases h1 : a = k1
      · subst h1
        simpa [delete] using ih
      · simp [delete, ih, get_cons, h1]
    · by_cases h1 : a = k1
      · subst h1
        have hk : ¬ k = a := fun h => hak h.symm
        simp [delete, hak, get_cons, hk]
      · simp [delete, hak, get_cons, h1, ih]

theorem get_set (m : GoMap V) (k : String) (v : V) (k1 : String) :
    (m.set k v).get k1 = if k = k1 then some v else m.get k1 := by
  unfold set
  rw [get_cons, get_delete]
  by_cases h : k = k1 <;> simp [h]

theorem get_range_set (m acc : GoMap V) (k : String) :
    (m.range (fun k v a => a.set k v) acc).get k
      = match m.get k with
        | some v => some v
        | none => acc.get k := by
  induction m with
  | nil => simp [range, get]
  | cons p rest ih =>
    obtain ⟨a, b⟩ := p
    have hstep : GoMap.range ((a, b) :: rest) (fun k v a => a.set k v) acc
        = (GoMap.range rest (fun k v a => a.set k v) acc).set a b := rfl
    rw [hstep, get_set, get_cons]
    by_cases h : a = k
    · simp [h]
    · simp [h, ih]

theorem mem_keys_iff (m : GoMap V) (k : String) : k ∈ m.keys ↔ m.get k ≠ none := by
  unfold keys
  rw [List.mem_dedup]
  induction m with
  | nil => simp [get]
  | cons p rest ih =>
    obtain ⟨a, b⟩ := p
    rw [get_cons]
    by_cases h : a = k
    · simp [h]
    · have hk : ¬ k = a := fun e => h e.symm
      simp only [List.map_cons, List.mem_cons, hk, false_or, h, if_false]
      exact ih

theorem get_eq_none_of_not_mem (m : GoMap V) (k : String) (h : k ∉ m.keys) :
    m.get k = none := by
  by_contra hne
  exact h ((mem_keys_iff m k).2 hne)

end GoMap

/-- Reading a key of the merged map: the local entry when there is one, the global
entry otherwise. -/
theorem mergeContext_get {V : Type} (global localCtx : GoMap V) (k : String) :
    (mergeContext global localCtx).get k
      = match localCtx.get k with
        | some v => some v
        | none => global.get k := by
  unfold mergeContext
  simp only [GoMap.get_range_set, GoMap.get_empty]
  cases localCtx.get k <;> cases global.get k <;> rfl

/-! ## Lemmas on the trace of a log call -/

section TraceLemmas

variable {N V : Type}

theorem World.emit_trace (w : World N V) (ev : Event N V) :
    (w.emit ev).trace = w.trace ++ [ev] := rfl

theorem World.emit_pm (w : World N V) (ev : Event N V) : (w.emit ev).pm = w.pm := rfl

theorem foldl_notify_trace (ns : List N) (e : LogEntry V) (w : World N V) :
    (ns.foldl (fun w n => w.emit (Event.notify n e)) w).trace
      = w.trace ++ ns.map (fun n => Event.notify n e) := by
  induction ns generalizing w with
  | nil => simp
  | cons n rest ih =>
    rw [List.foldl_cons, ih]
    simp [World.emit]

theorem foldl_notify_pm (ns : List N) (e : LogEntry V) (w : World N V) :
    (ns.foldl (fun w n => w.emit (Event.notify n e)) w).pm = w.pm := by
  induction ns generalizing w with
  | nil => simp
  | cons n rest ih =>
    rw [List.foldl_cons, ih]
    simp [World.emit]

/-- The metrics sink after the metrics step of an accepted call. -/
theorem metricsStep_pm (w : World N V) (level : LogLevel) :
    (if w.pm.IsEnabled then
        (w.IncrementMetric "logs_total" 1).IncrementMetric ("logs_total_" ++ level) 1
      else w).pm
      = if w.pm.enabled then
          (w.pm.IncrementMetric "logs_total" 1).IncrementMetric ("logs_total_" ++ level) 1
        else w.pm := by
  unfold PrometheusManager.IsEnabled
  cases w.pm.enabled <;> simp [World.IncrementMetric]

/-- The trace after the metrics step of an accepted call. -/
theorem metricsStep_trace (w : World N V) (level : LogLevel) :
    (if w.pm.IsEnabled then
        (w.IncrementMetric "logs_total" 1).IncrementMetric ("logs_total_" ++ level) 1
      else w).trace
      = w.trace ++ metricEvents w.pm.enabled level := by
  unfold PrometheusManager.IsEnabled metricEvents
  cases w.pm.enabled <;> simp [World.IncrementMetric]

/-- The whole trace of an accepted call, step by step. -/
theorem log_trace_of_accepted (l : Logger N V) (env : CallEnv) (level : LogLevel)
    (msg : String) (ctx : GoMap V) (w : World N V)
    (h : logLevels.index level ≥ logLevels.index l.level) :
    (l.log env level msg ctx w).trace
      = w.trace ++ ([Event.clock, Event.callerInfo,
            Event.write (l.buildEntry env level msg ctx)]
          ++ reportEvents (l.writer.Write (l.buildEntry env level msg ctx))
          ++ l.notifiers.map (fun n => Event.notify n (l.buildEntry env level msg ctx))
          ++ metricEvents w.pm.enabled level
          ++ exitEvents level) := by
  have hs : l.shouldLog level = true := by simp [Logger.shouldLog, h]
  unfold Logger.log
  simp only [hs, Bool.not_true, Bool.false_eq_true, if_false]
  have hm := fun (w1 : World N V) => metricsStep_trace w1 level
  have hw : ∀ (r : Option String) (w1 : World N V),
      (match r with
        | some err => w1.emit (Event.report err)
        | none => w1).trace = w1.trace ++ reportEvents r
        ∧ (match r with
        | some err => w1.emit (Event.report err)
        | none => w1).pm = w1.pm := by
    intro r w1
    cases r <;> simp [reportEvents, World.emit]
  by_cases hf : level = FATAL
  · simp only [hf, if_true, exitEvents]
    rw [World.emit_trace, ← hf, hm, foldl_notify_trace, foldl_notify_pm, (hw _ _).1,
      (hw _ _).2]
    simp [World.emit]
  · simp only [hf, if_false, exitEvents]
    rw [hm, foldl_notify_trace, foldl_notify_pm, (hw _ _).1, (hw _ _).2]
    simp [World.emit]

/-- The metrics sink after an accepted call. -/
theorem log_pm_of_accepted (l : Logger N V) (env : CallEnv) (level : LogLevel)
    (msg : String) (ctx : GoMap V) (w : World N V)
    (h : logLevels.index level ≥ logLevels.index l.level) :
    (l.log env level msg ctx w).pm
      = if w.pm.enabled then
          (w.pm.IncrementMetric "logs_total" 1).IncrementMetric ("logs_total_" ++ level) 1
        else w.pm := by
  have hs : l.shouldLog level = true := by simp [Logger.shouldLog, h]
  unfold Logger.log
  simp only [hs, Bool.not_true, Bool.false_eq_true, if_false]
  have hm := fun (w1 : World N V) => metricsStep_pm w1 level
  have hw : ∀ (r : Option String) (w1 : World N V),
      (match r with
        | some err => w1.emit (Event.report err)
        | none => w1).pm = w1.pm := by
    intro r w1
    cases r <;> simp [World.emit]
  by_cases hf : level = FATAL
  · simp only [hf, if_true]
    rw [World.emit_pm, ← hf, hm, foldl_notify_pm, hw]
    rfl
  · simp only [hf, if_false]
    rw [hm, foldl_notify_pm, hw]
    rfl

end TraceLemmas

/-! ## Lemmas on the entry of a log call -/

section EntryLemmas

variable {N V : Type}

theorem range_addMetadata_metadata (m : GoMap V) (e : LogEntry V) :
    (m.range (fun k v e => e.AddMetadata k v) e).Metadata
      = m.range (fun k v a => a.set k v) e.Metadata := by
  induction m with
  | nil => rfl
  | cons p rest ih =>
    show ((GoMap.range rest (fun k v e => e.AddMetadata k v) e).AddMetadata p.1 p.2).Metadata
      = (GoMap.range rest (fun k v a => a.set k v) e.Metadata).set p.1 p.2
    rw [← ih]
    rfl

theorem range_addMetadata_fields (m : GoMap V) (e : LogEntry V) :
    (m.range (fun k v e => e.AddMetadata k v) e).Level = e.Level
      ∧ (m.range (fun k v e => e.AddMetadata k v) e).Message = e.Message
      ∧ (m.range (fun k v e => e.AddMetadata k v) e).Severity = e.Severity
      ∧ (m.range (fun k v e => e.AddMetadata k v) e).Timestamp = e.Timestamp
      ∧ (m.range (fun k v e => e.AddMetadata k v) e).Caller = e.Caller
      ∧ (m.range (fun k v e => e.AddMetadata k v) e).Context = e.Context := by
  induction m with
  | nil => exact ⟨rfl, rfl, rfl, rfl, rfl, rfl⟩
  | cons p rest ih => exact ih

theorem buildEntry_level (l : Logger N V) (env : CallEnv) (level : LogLevel) (msg : String)
    (ctx : GoMap V) : (l.buildEntry env level msg ctx).Level = level := by
  unfold Logger.buildEntry
  exact (range_addMetadata_fields _ _).1

theorem buildEntry_message (l : Logger N V) (env : CallEnv) (level : LogLevel)
    (msg : String) (ctx : GoMap V) : (l.buildEntry env level msg ctx).Message = msg := by
  unfold Logger.buildEntry
  exact (range_addMetadata_fields _ _).2.1

theorem buildEntry_severity (l : Logger N V) (env : CallEnv) (level : LogLevel)
    (msg : String) (ctx : GoMap V) :
    (l.buildEntry env level msg ctx).Severity = logLevels.index level := by
  unfold Logger.buildEntry
  exact (range_addMetadata_fields _ _).2.2.1

/-- The metadata of the entry a log call builds is the merged context, key by key. -/
theorem buildEntry_metadata_get (l : Logger N V) (env : CallEnv)
    (level : LogLevel) (msg : String) (ctx : GoMap V) (k : String) :
    (l.buildEntry env level msg ctx).Metadata.get k = (mergeContext l.metadata ctx).get k := by
  unfold Logger.buildEntry
  simp only []
  rw [range_addMetadata_metadata, GoMap.get_range_set]
  cases (mergeContext l.metadata ctx).get k <;> rfl

end EntryLemmas

/-! ## Lemmas on the views of a trace -/

section ViewLemmas

variable {N V : Type}

theorem writesOf_append (a b : List (Event N V)) :
    writesOf (a ++ b) = writesOf a ++ writesOf b := by
  simp [writesOf, List.filterMap_append]

theorem notifiesOf_append (a b : List (Event N V)) :
    notifiesOf (a ++ b) = notifiesOf a ++ notifiesOf b := by
  simp [notifiesOf, List.filterMap_append]

theorem metricsOf_append (a b : List (Event N V)) :
    metricsOf (a ++ b) = metricsOf a ++ metricsOf b := by
  simp [metricsOf, List.filterMap_append]

theorem reportsOf_append (a b : List (Event N V)) :
    reportsOf (a ++ b) = reportsOf a ++ reportsOf b := by
  simp [reportsOf, List.filterMap_append]

theorem exitsOf_append (a b : List (Event N V)) :
    exitsOf (a ++ b) = exitsOf a ++ exitsOf b := by
  simp [exitsOf, List.filterMap_append]

theorem notifiesOf_map_notify (ns : List N) (e : LogEntry V) :
    notifiesOf (ns.map (fun n => (Event.notify n e : Event N V)))
      = ns.map (fun n => (n, e)) := by
  induction ns with
  | nil => rfl
  | cons n rest ih =>
    have hc : notifiesOf (((n :: rest).map (fun n => (Event.notify n e : Event N V))))
        = (n, e) :: notifiesOf (rest.map (fun n => (Event.notify n e : Event N V))) := rfl
    rw [hc, ih]
    rfl

theorem writesOf_map_notify (ns : List N) (e : LogEntry V) :
    writesOf (ns.map (fun n => (Event.notify n e : Event N V))) = [] := by
  induction ns with
  | nil => rfl
  | cons n rest ih => exact ih

theorem metricsOf_map_notify (ns : List N) (e : LogEntry V) :
    metricsOf (ns.map (fun n => (Event.notify n e : Event N V))) = [] := by
  induction ns with
  | nil => rfl
  | cons n rest ih => exact ih

theorem reportsOf_map_notify (ns : List N) (e : LogEntry V) :
    reportsOf (ns.map (fun n => (Event.notify n e : Event N V))) = [] := by
  induction ns with
  | nil => rfl
  | cons n rest ih => exact ih

theorem exitsOf_map_notify (ns : List N) (e : LogEntry V) :
    exitsOf (ns.map (fun n => (Event.notify n e : Event N V))) = [] := by
  induction ns with
  | nil => rfl
  | cons n rest ih => exact ih

theorem filter_not_report_map_notify (ns : List N) (e : LogEntry V) :
    (ns.map (fun n => (Event.notify n e : Event N V))).filter (fun ev => !isReport ev)
      = ns.map (fun n => (Event.notify n e : Event N V)) := by
  induction ns with
  | nil => rfl
  | cons n rest ih =>
    have hc : ((n :: rest).map (fun n => (Event.notify n e : Event N V))).filter
          (fun ev => !isReport ev)
        = Event.notify n e :: (rest.map (fun n => (Event.notify n e : Event N V))).filter
          (fun ev => !isReport ev) := rfl
    rw [hc, ih]
    rfl

theorem views_metricEvents (enabled : Bool) (level : LogLevel) :
    writesOf (metricEvents enabled level : List (Event N V)) = []
      ∧ notifiesOf (metricEvents enabled level : List (Event N V)) = []
      ∧ reportsOf (metricEvents enabled level : List (Event N V)) = []
      ∧ exitsOf (metricEvents enabled level : List (Event N V)) = []
      ∧ metricsOf (metricEvents enabled level : List (Event N V))
          = (if enabled then [("logs_total", 1), ("logs_total_" ++ level, 1)] else [])
      ∧ (metricEvents enabled level : List (Event N V)).filter (fun ev => !isReport ev)
          = metricEvents enabled level := by
  cases enabled <;> exact ⟨rfl, rfl, rfl, rfl, rfl, rfl⟩

theorem views_exitEvents (level : LogLevel) :
    writesOf (exitEvents level : List (Event N V)) = []
      ∧ notifiesOf (exitEvents level : List (Event N V)) = []
      ∧ reportsOf (exitEvents level : List (Event N V)) = []
      ∧ metricsOf (exitEvents level : List (Event N V)) = []
      ∧ exitsOf (exitEvents level : List (Event N V)) = (if level = FATAL then [1] else [])
      ∧ (exitEvents level : List (Event N V)).filter (fun ev => !isReport ev)
          = exitEvents level := by
  unfold exitEvents
  by_cases h : level = FATAL
  · simp only [h, if_true]
    exact ⟨rfl, rfl, rfl, rfl, rfl, rfl⟩
  · simp only [h, if_false]
    exact ⟨rfl, rfl, rfl, rfl, rfl, rfl⟩

theorem views_reportEvents (r : Option String) :
    writesOf (reportEvents r : List (Event N V)) = []
      ∧ notifiesOf (reportEvents r : List (Event N V)) = []
      ∧ metricsOf (reportEvents r : List (Event N V)) = []
      ∧ exitsOf (reportEvents r : List (Event N V)) = []
      ∧ reportsOf (reportEvents r : List (Event N V))
          = (match r with
            | some err => [err]
            | none => [])
      ∧ (reportEvents r : List (Event N V)).filter (fun ev => !isReport ev) = [] := by
  cases r <;> exact ⟨rfl, rfl, rfl, rfl, rfl, rfl⟩

end ViewLemmas

/-! ## Lemmas on severities and counters -/

theorem logLevels_index_le_five (level : LogLevel) : logLevels.index level ≤ 5 := by
  unfold GoMap.index logLevels
  simp only [GoMap.get]
  split_ifs <;> simp

theorem logLevels_index_fatal : logLevels.index FATAL = 5 := by decide

theorem logLevels_index_of_unlisted (level : LogLevel) (h1 : level ≠ DEBUG)
    (h2 : level ≠ INFO) (h3 : level ≠ WARN) (h4 : level ≠ ERROR) (h5 : level ≠ FATAL) :
    logLevels.get level = none ∧ logLevels.index level = 0 := by
  unfold GoMap.index logLevels
  simp only [GoMap.get]
  rw [if_neg (Ne.symm h1), if_neg (Ne.symm h2), if_neg (Ne.symm h3), if_neg (Ne.symm h4),
    if_neg (Ne.symm h5)]
  exact ⟨rfl, rfl⟩

theorem perLevel_counter_ne_total (level : LogLevel) : "logs_total_" ++ level ≠ "logs_total" := by
  intro h
  have hlen := congrArg String.length h
  rw [String.length_append] at hlen
  have h11 : ("logs_total_" : String).length = 11 := by decide
  have h10 : ("logs_total" : String).length = 10 := by decide
  omega

theorem PrometheusManager.counter_IncrementMetric (pm : PrometheusManager) (name : String)
    (delta : Int) (c : String) :
    (pm.IncrementMetric name delta).counter c
      = if name = c then pm.counter name + delta else pm.counter c := by
  unfold PrometheusManager.counter PrometheusManager.IncrementMetric GoMap.index
  simp only [GoMap.get_set]
  by_cases h : name = c <;> simp [h]

/-! ## Lemmas on the rendered line -/

theorem GoMap.len_pos_iff {V : Type} (m : GoMap V) :
    m.len > 0 ↔ ∃ k, m.get k ≠ none := by
  unfold GoMap.len
  constructor
  · intro h
    obtain ⟨k, hk⟩ := List.exists_mem_of_length_pos h
    exact ⟨k, (GoMap.mem_keys_iff m k).1 hk⟩
  · rintro ⟨k, hk⟩
    exact List.length_pos_of_mem ((GoMap.mem_keys_iff m k).2 hk)

theorem newline_not_mem_append (a b : String) (ha : '\n' ∉ a.data) (hb : '\n' ∉ b.data) :
    '\n' ∉ (a ++ b).data := by
  intro h
  have h2 : '\n' ∈ a.data ++ b.data := h
  rcases List.mem_append.1 h2 with h3 | h3
  · exact ha h3
  · exact hb h3

/-- The colour and the glyph that `TextFormatter.Format` picks for a level hold no
newline. -/
theorem newline_not_mem_decoration (level : LogLevel) :
    '\n' ∉ (if level = DEBUG then ("\x1b[34m", "🐛")
        else if level = INFO then ("\x1b[32m", "ℹ️")
        else if level = WARN then ("\x1b[33m", "⚠️")
        else if level = ERROR then ("\x1b[31m", "❌")
        else if level = FATAL then ("\x1b[35m", "💀")
        else (("", "") : String × String)).1.data
      ∧ '\n' ∉ (if level = DEBUG then ("\x1b[34m", "🐛")
        else if level = INFO then ("\x1b[32m", "ℹ️")
        else if level = WARN then ("\x1b[33m", "⚠️")
        else if level = ERROR then ("\x1b[31m", "❌")
        else if level = FATAL then ("\x1b[35m", "💀")
        else (("", "") : String × String)).2.data := by
  split_ifs <;> exact ⟨by decide, by decide⟩

/-! ## Lemmas on removing decorations -/

theorem isPrefixOf_append_self (pre rest : List Char) :
    pre.isPrefixOf (pre ++ rest) = true := by
  induction pre with
  | nil => simp [List.isPrefixOf]
  | cons c cs ih => simp [List.isPrefixOf, ih]

theorem drop_length_append_self (pre rest : List Char) :
    (pre ++ rest).drop pre.length = rest := by
  induction pre with
  | nil => rfl
  | cons c cs ih => exact ih

theorem take_length_append_self (pre rest : List Char) :
    (pre ++ rest).take pre.length = pre := by
  induction pre with
  | nil => simp
  | cons c cs ih =>
    show c :: (cs ++ rest).take cs.length = c :: cs
    rw [ih]

theorem dropLeading_append_self (pre rest : List Char) :
    dropLeading pre (pre ++ rest) = rest := by
  unfold dropLeading
  rw [isPrefixOf_append_self, if_pos rfl, drop_length_append_self]

/-- Removing the decorations from a line that carries them at the icon position and
around the level name gives the line without them. -/
theorem removeDecorationsAt_decorated (head color glyph level tail : List Char) :
    removeDecorationsAt head.length color glyph level.length
        (head ++ (color ++ (glyph ++ (ansiReset.data
          ++ ([' '] ++ (color ++ (level ++ (ansiReset.data ++ tail))))))))
      = head ++ ([' '] ++ (level ++ tail)) := by
  unfold removeDecorationsAt
  simp only [take_length_append_self, drop_length_append_self, dropLeading_append_self]
  have h1 : List.take 1 ([' '] ++ (color ++ (level ++ (ansiReset.data ++ tail)))) = [' '] :=
    take_length_append_self [' '] _
  have h2 : List.drop 1 ([' '] ++ (color ++ (level ++ (ansiReset.data ++ tail))))
      = color ++ (level ++ (ansiReset.data ++ tail)) :=
    drop_length_append_self [' '] _
  rw [h1, h2, dropLeading_append_self, take_length_append_self, drop_length_append_self,
    dropLeading_append_self]
  simp

/-- The colour and the glyph in the switch of `TextFormatter.Format` are `levelColor` and
`levelIcon`. -/
theorem decoration_eq (level : LogLevel) :
    (if level = DEBUG then ("\x1b[34m", "🐛")
        else if level = INFO then ("\x1b[32m", "ℹ️")
        else if level = WARN then ("\x1b[33m", "⚠️")
        else if level = ERROR then ("\x1b[31m", "❌")
        else if level = FATAL then ("\x1b[35m", "💀")
        else (("", "") : String × String)) = (levelColor level, levelIcon level) := by
  unfold levelColor levelIcon
  split_ifs <;> rfl

/-! ## The claims -/

/-- C1: a call below the threshold (`logLevels[L] < logLevels[T]`) returns at once and
leaves the world as it was: the trace gains no event (no write, no notify, no metric call,
no caller capture, no exit) and the metrics sink is untouched. -/
theorem log_below_threshold_no_effect {N V : Type} (l : Logger N V) (env : CallEnv)
    (level : LogLevel) (msg : String) (ctx : GoMap V) (w : World N V)
    (h : logLevels.index level < logLevels.index l.level) :
    l.log env level msg ctx w = w
      ∧ writesOf (l.log env level msg ctx w).trace = writesOf w.trace
      ∧ notifiesOf (l.log env level msg ctx w).trace = notifiesOf w.trace
      ∧ metricsOf (l.log env level msg ctx w).trace = metricsOf w.trace
      ∧ (l.log env level msg ctx w).pm = w.pm
      ∧ callerCaptures (l.log env level msg ctx w).trace = callerCaptures w.trace
      ∧ exitsOf (l.log env level msg ctx w).trace = exitsOf w.trace := by
  have hs : l.shouldLog level = false := by
    simp only [Logger.shouldLog, decide_eq_false_iff_not, ge_iff_le, not_le]
    exact h
  have hw : l.log env level msg ctx w = w := by
    unfold Logger.log
    simp [hs]
  rw [hw]
  exact ⟨rfl, rfl, rfl, rfl, rfl, rfl, rfl⟩

/-- C1, at threshold INFO and level DEBUG. -/
theorem log_below_threshold_no_effect_witness :
    logLevels.index DEBUG < logLevels.index sampleLogger.level
      ∧ sampleLogger.log sampleEnv DEBUG "x" [] sampleWorld = sampleWorld :=
  ⟨by decide,
    (log_below_threshold_no_effect sampleLogger sampleEnv DEBUG "x" [] sampleWorld
      (by decide)).1⟩

/-- C2: an accepted call (`logLevels[L] >= logLevels[threshold]`) hands exactly one entry
to `Writer.Write`; its level is `L`, its message `msg`, its severity `logLevels[L]`, and
its metadata is `mergeContext(globalMetadata, ctx)`, key by key. -/
theorem log_accepted_writes_once {N V : Type} (l : Logger N V) (env : CallEnv)
    (level : LogLevel) (msg : String) (ctx : GoMap V) (w : World N V)
    (h : logLevels.index level ≥ logLevels.index l.level) :
    ∃ (new : List (Event N V)) (e : LogEntry V),
      (l.log env level msg ctx w).trace = w.trace ++ new
        ∧ writesOf new = [e]
        ∧ e.Level = level
        ∧ e.Message = msg
        ∧ e.Severity = logLevels.index level
        ∧ (∀ k, e.Metadata.get k = (mergeContext l.metadata ctx).get k)
        ∧ (∀ k, k ∈ e.Metadata.keys ↔ k ∈ (mergeContext l.metadata ctx).keys) := by
  refine ⟨_, l.buildEntry env level msg ctx, log_trace_of_accepted l env level msg ctx w h,
    ?_, ?_, ?_, ?_, ?_, ?_⟩
  · cases l.writer.Write (l.buildEntry env level msg ctx) <;> cases w.pm.enabled <;>
      by_cases hf : level = FATAL <;>
      simp [writesOf, reportEvents, metricEvents, exitEvents, List.filterMap_append,
        List.filterMap_map, hf]
  · exact buildEntry_level l env level msg ctx
  · exact buildEntry_message l env level msg ctx
  · exact buildEntry_severity l env level msg ctx
  · exact buildEntry_metadata_get l env level msg ctx
  · intro k
    rw [GoMap.mem_keys_iff, GoMap.mem_keys_iff, buildEntry_metadata_get]

/-- C2, on the scenario of the specification: threshold INFO, global metadata
`env = prod`, and the call `emit(INFO, "hello", k = v)`. -/
theorem log_accepted_writes_once_witness :
    logLevels.index INFO ≥ logLevels.index sampleLogger.level
      ∧ (∃ (new : List (Event Nat String)) (e : LogEntry String),
          (sampleLogger.log sampleEnv INFO "hello" [("k", "v")] sampleWorld).trace
              = sampleWorld.trace ++ new
            ∧ writesOf new = [e]
            ∧ e.Level = INFO
            ∧ e.Message = "hello"
            ∧ e.Severity = logLevels.index INFO
            ∧ (∀ k, e.Metadata.get k = (mergeContext sampleLogger.metadata [("k", "v")]).get k)
            ∧ (∀ k, k ∈ e.Metadata.keys
                ↔ k ∈ (mergeContext sampleLogger.metadata [("k", "v")]).keys))
      ∧ (writesOf (sampleLogger.log sampleEnv INFO "hello" [("k", "v")] sampleWorld).trace).map
          (fun e => (e.Message, e.Severity, e.Metadata.get "env", e.Metadata.get "k",
            e.Metadata.len))
          = [("hello", 2, some "prod", some "v", 2)] :=
  ⟨by decide,
    log_accepted_writes_once sampleLogger sampleEnv INFO "hello" [("k", "v")] sampleWorld
      (by decide),
    by decide⟩

/-- C3: `mergeContext(global, local)` maps a key of `local` to its local value, a key of
`global` that `local` lacks to its global value, and has no entry for any other key; its
key set is the union of the two key sets. -/
theorem mergeContext_lookup {V : Type} (global localCtx : GoMap V) (k : String) :
    (k ∈ localCtx.keys → (mergeContext global localCtx).get k = localCtx.get k)
      ∧ (k ∉ localCtx.keys → k ∈ global.keys →
          (mergeContext global localCtx).get k = global.get k)
      ∧ (k ∉ localCtx.keys → k ∉ global.keys → (mergeContext global localCtx).get k = none)
      ∧ (k ∈ (mergeContext global localCtx).keys ↔ k ∈ global.keys ∨ k ∈ localCtx.keys) := by
  have hget := mergeContext_get global localCtx k
  refine ⟨?_, ?_, ?_, ?_⟩
  · intro hk
    rw [GoMap.mem_keys_iff] at hk
    rw [hget]
    cases hl : localCtx.get k with
    | none => exact absurd hl hk
    | some v => rfl
  · intro hk _
    rw [hget, GoMap.get_eq_none_of_not_mem localCtx k hk]
  · intro hk hg
    rw [hget, GoMap.get_eq_none_of_not_mem localCtx k hk,
      GoMap.get_eq_none_of_not_mem global k hg]
  · rw [GoMap.mem_keys_iff, GoMap.mem_keys_iff, GoMap.mem_keys_iff, hget]
    cases localCtx.get k <;> cases global.get k <;> simp

/-- C3, on a collision: with `a` bound globally to 1 and locally to 2, and `b` bound only
globally, the merged map reads 2 under `a`, 3 under `b` and nothing under `c`. -/
theorem mergeContext_lookup_witness :
    "a" ∈ GoMap.keys [("a", (2 : Nat))]
      ∧ (mergeContext [("a", 1), ("b", 3)] [("a", (2 : Nat))]).get "a" = some 2
      ∧ (mergeContext [("a", 1), ("b", 3)] [("a", (2 : Nat))]).get "b" = some 3
      ∧ (mergeContext [("a", 1), ("b", 3)] [("a", (2 : Nat))]).get "c" = none :=
  ⟨by decide,
    ((mergeContext_lookup [("a", 1), ("b", 3)] [("a", (2 : Nat))] "a").1 (by decide)).trans
      (by decide),
    ((mergeContext_lookup [("a", 1), ("b", 3)] [("a", (2 : Nat))] "b").2.1 (by decide)
      (by decide)).trans (by decide),
    (mergeContext_lookup [("a", 1), ("b", 3)] [("a", (2 : Nat))] "c").2.2.1 (by decide)
      (by decide)⟩

/-- C4: on maps with disjoint key sets, `mergeContext(a, b)` and `mergeContext(b, a)` are
the same mapping: they read the same under every key and have the same keys. -/
theorem mergeContext_comm_of_disjoint {V : Type} (a b : GoMap V)
    (h : ∀ k, k ∈ a.keys → k ∉ b.keys) :
    (∀ k, (mergeContext a b).get k = (mergeContext b a).get k)
      ∧ (∀ k, k ∈ (mergeContext a b).keys ↔ k ∈ (mergeContext b a).keys) := by
  have hget : ∀ k, (mergeContext a b).get k = (mergeContext b a).get k := by
    intro k
    rw [mergeContext_get, mergeContext_get]
    cases ha : a.get k with
    | none => cases b.get k <;> rfl
    | some v =>
      have hk : k ∈ a.keys := by
        rw [GoMap.mem_keys_iff, ha]
        simp
      rw [GoMap.get_eq_none_of_not_mem b k (h k hk)]
  refine ⟨hget, ?_⟩
  intro k
  rw [GoMap.mem_keys_iff, GoMap.mem_keys_iff, hget]

/-- C4, on the maps `x = 1` and `y = 2`. -/
theorem mergeContext_comm_of_disjoint_witness :
    (∀ k, k ∈ GoMap.keys [("x", (1 : Nat))] → k ∉ GoMap.keys [("y", (2 : Nat))])
      ∧ (∀ k, (mergeContext [("x", (1 : Nat))] [("y", 2)]).get k
          = (mergeContext [("y", 2)] [("x", (1 : Nat))]).get k) :=
  ⟨by
      intro k hk
      simp [GoMap.keys] at hk ⊢
      rw [hk]
      decide,
    (mergeContext_comm_of_disjoint [("x", (1 : Nat))] [("y", 2)] (by
      intro k hk
      simp [GoMap.keys] at hk ⊢
      rw [hk]
      decide)).1⟩

/-- C5: when `Writer.Write` returns an error on an accepted call, the error is reported
once on the fallback channel and nothing else changes: `Notify` still runs on every
notifier, the metrics step still runs, and apart from the report the run is the one of a
writer that succeeds (`log` has no result through which the error could reach the
caller). -/
theorem log_write_error_is_only_reported {N V : Type} (l : Logger N V) (env : CallEnv)
    (level : LogLevel) (msg : String) (ctx : GoMap V) (w : World N V) (err : String)
    (h : logLevels.index level ≥ logLevels.index l.level)
    (herr : l.writer.Write (l.buildEntry env level msg ctx) = some err) :
    ∃ new : List (Event N V),
      (l.log env level msg ctx w).trace = w.trace ++ new
        ∧ reportsOf new = [err]
        ∧ notifiesOf new = l.notifiers.map (fun n => (n, l.buildEntry env level msg ctx))
        ∧ metricsOf new
            = (if w.pm.enabled then [("logs_total", 1), ("logs_total_" ++ level, 1)] else [])
        ∧ (l.log env level msg ctx w).pm
            = (if w.pm.enabled then
                (w.pm.IncrementMetric "logs_total" 1).IncrementMetric ("logs_total_" ++ level) 1
              else w.pm)
        ∧ (∀ ok : LogWriter V, ok.Write (l.buildEntry env level msg ctx) = none →
            ({ l with writer := ok }.log env level msg ctx w).trace
                = w.trace ++ new.filter (fun ev => !isReport ev)
              ∧ ({ l with writer := ok }.log env level msg ctx w).pm
                = (l.log env level msg ctx w).pm) := by
  have hm := @views_metricEvents N V w.pm.enabled level
  have hx := @views_exitEvents N V level
  refine ⟨_, log_trace_of_accepted l env level msg ctx w h, ?_, ?_, ?_,
    log_pm_of_accepted l env level msg ctx w h, ?_⟩
  · rw [herr]
    simp only [reportsOf_append, reportsOf_map_notify, hm.2.2.1, hx.2.2.1,
      (@views_reportEvents N V (some err)).2.2.2.2.1, List.append_nil]
    rfl
  · rw [herr]
    simp only [notifiesOf_append, notifiesOf_map_notify, hm.2.1, hx.2.1,
      (@views_reportEvents N V (some err)).2.1, List.append_nil]
    rfl
  · rw [herr]
    simp only [metricsOf_append, metricsOf_map_notify, hm.2.2.2.2.1, hx.2.2.2.1,
      (@views_reportEvents N V (some err)).2.2.1, List.append_nil]
    rfl
  · intro ok hok
    have hacc : logLevels.index level
        ≥ logLevels.index ({ l with writer := ok } : Logger N V).level := h
    have hb : ({ l with writer := ok } : Logger N V).buildEntry env level msg ctx
        = l.buildEntry env level msg ctx := rfl
    refine ⟨?_, ?_⟩
    · rw [log_trace_of_accepted _ env level msg ctx w hacc, hb]
      simp only [hok, herr, List.filter_append, filter_not_report_map_notify, hm.2.2.2.2.2,
        hx.2.2.2.2.2, (@views_reportEvents N V (some err)).2.2.2.2.2, List.append_nil]
      rfl
    · rw [log_pm_of_accepted _ env level msg ctx w hacc,
        log_pm_of_accepted l env level msg ctx w h]

/-- C5, on a logger whose writer fails: the report is followed by both notifier calls and
both metric increments. -/
theorem log_write_error_is_only_reported_witness :
    logLevels.index WARN ≥ logLevels.index brokenLogger.level
      ∧ brokenLogger.writer.Write (brokenLogger.buildEntry sampleEnv WARN "w" []) = some "disk full"
      ∧ (∃ new : List (Event Nat String),
          (brokenLogger.log sampleEnv WARN "w" [] sampleWorld).trace = sampleWorld.trace ++ new
            ∧ reportsOf new = ["disk full"]
            ∧ notifiesOf new
                = brokenLogger.notifiers.map (fun n => (n, brokenLogger.buildEntry sampleEnv WARN "w" []))
            ∧ metricsOf new
                = (if sampleWorld.pm.enabled then
                    [("logs_total", 1), ("logs_total_" ++ WARN, 1)] else [])
            ∧ (brokenLogger.log sampleEnv WARN "w" [] sampleWorld).pm
                = (if sampleWorld.pm.enabled then
                    (sampleWorld.pm.IncrementMetric "logs_total" 1).IncrementMetric
                      ("logs_total_" ++ WARN) 1
                  else sampleWorld.pm)
            ∧ (∀ ok : LogWriter String,
                ok.Write (brokenLogger.buildEntry sampleEnv WARN "w" []) = none →
                ({ brokenLogger with writer := ok }.log sampleEnv WARN "w" [] sampleWorld).trace
                    = sampleWorld.trace ++ new.filter (fun ev => !isReport ev)
                  ∧ ({ brokenLogger with writer := ok }.log sampleEnv WARN "w" []
                      sampleWorld).pm
                    = (brokenLogger.log sampleEnv WARN "w" [] sampleWorld).pm))
      ∧ (notifiesOf (brokenLogger.log sampleEnv WARN "w" [] sampleWorld).trace).map Prod.fst
          = [7, 9]
      ∧ metricsOf (brokenLogger.log sampleEnv WARN "w" [] sampleWorld).trace
          = [("logs_total", 1), ("logs_total_WARN", 1)] :=
  ⟨by decide, rfl,
    log_write_error_is_only_reported brokenLogger sampleEnv WARN "w" [] sampleWorld "disk full"
      (by decide) rfl,
    by decide, by decide⟩

/-- C6: an accepted call invokes `Notify` once for each notifier of the list, in list
order, each time with the entry that was handed to `Writer.Write`, and only after that
write. -/
theorem log_notifies_each_in_order {N V : Type} (l : Logger N V) (env : CallEnv)
    (level : LogLevel) (msg : String) (ctx : GoMap V) (w : World N V)
    (h : logLevels.index level ≥ logLevels.index l.level) :
    ∃ (pre post : List (Event N V)) (e : LogEntry V),
      (l.log env level msg ctx w).trace = w.trace ++ (pre ++ [Event.write e] ++ post)
        ∧ writesOf pre = []
        ∧ notifiesOf pre = []
        ∧ writesOf post = []
        ∧ notifiesOf post = l.notifiers.map (fun n => (n, e)) := by
  have hm := @views_metricEvents N V w.pm.enabled level
  have hx := @views_exitEvents N V level
  have hr := @views_reportEvents N V (l.writer.Write (l.buildEntry env level msg ctx))
  refine ⟨[Event.clock, Event.callerInfo],
    reportEvents (l.writer.Write (l.buildEntry env level msg ctx))
      ++ l.notifiers.map (fun n => Event.notify n (l.buildEntry env level msg ctx))
      ++ metricEvents w.pm.enabled level ++ exitEvents level,
    l.buildEntry env level msg ctx, ?_, rfl, rfl, ?_, ?_⟩
  · rw [log_trace_of_accepted l env level msg ctx w h]
    simp
  · simp only [writesOf_append, writesOf_map_notify, hm.1, hx.1, hr.1, List.append_nil]
  · simp only [notifiesOf_append, notifiesOf_map_notify, hm.2.1, hx.2.1, hr.2.1,
      List.append_nil, List.nil_append]

/-- C6, on a logger with the notifiers 7 and 9: the trace of one accepted call is the
write followed by `Notify` on 7, then on 9, with the written entry. -/
theorem log_notifies_each_in_order_witness :
    logLevels.index ERROR ≥ logLevels.index sampleLogger.level
      ∧ (∃ (pre post : List (Event Nat String)) (e : LogEntry String),
          (sampleLogger.log sampleEnv ERROR "e" [] sampleWorld).trace
              = sampleWorld.trace ++ (pre ++ [Event.write e] ++ post)
            ∧ writesOf pre = []
            ∧ notifiesOf pre = []
            ∧ writesOf post = []
            ∧ notifiesOf post = sampleLogger.notifiers.map (fun n => (n, e)))
      ∧ notifiesOf (sampleLogger.log sampleEnv ERROR "e" [] sampleWorld).trace
          = [(7, sampleLogger.buildEntry sampleEnv ERROR "e" []),
              (9, sampleLogger.buildEntry sampleEnv ERROR "e" [])] :=
  ⟨by decide,
    log_notifies_each_in_order sampleLogger sampleEnv ERROR "e" [] sampleWorld (by decide),
    by decide⟩

/-- C7: on an accepted call at level `L`, an enabled metrics sink gets exactly the two
increments `logs_total` by 1 and `logs_total_L` by 1, so that each of these two counters
grows by exactly 1 and every other counter keeps its value; a disabled sink gets no
increment and keeps all its counters. -/
theorem log_metrics_step {N V : Type} (l : Logger N V) (env : CallEnv)
    (level : LogLevel) (msg : String) (ctx : GoMap V) (w : World N V)
    (h : logLevels.index level ≥ logLevels.index l.level) :
    ∃ new : List (Event N V),
      (l.log env level msg ctx w).trace = w.trace ++ new
        ∧ (w.pm.enabled = true →
            metricsOf new = [("logs_total", 1), ("logs_total_" ++ level, 1)]
              ∧ (l.log env level msg ctx w).pm.counter "logs_total"
                  = w.pm.counter "logs_total" + 1
              ∧ (l.log env level msg ctx w).pm.counter ("logs_total_" ++ level)
                  = w.pm.counter ("logs_total_" ++ level) + 1
              ∧ (∀ c, c ≠ "logs_total" → c ≠ "logs_total_" ++ level →
                  (l.log env level msg ctx w).pm.counter c = w.pm.counter c))
        ∧ (w.pm.enabled = false →
            metricsOf new = [] ∧ (l.log env level msg ctx w).pm = w.pm) := by
  have hm := @views_metricEvents N V w.pm.enabled level
  have hx := @views_exitEvents N V level
  have hr := @views_reportEvents N V (l.writer.Write (l.buildEntry env level msg ctx))
  have hpm := log_pm_of_accepted l env level msg ctx w h
  have hmet : metricsOf (([Event.clock, Event.callerInfo,
            Event.write (l.buildEntry env level msg ctx)] : List (Event N V))
          ++ reportEvents (l.writer.Write (l.buildEntry env level msg ctx))
          ++ l.notifiers.map (fun n => Event.notify n (l.buildEntry env level msg ctx))
          ++ metricEvents w.pm.enabled level
          ++ exitEvents level)
      = (if w.pm.enabled then [("logs_total", 1), ("logs_total_" ++ level, 1)] else []) := by
    simp only [metricsOf_append, metricsOf_map_notify, hm.2.2.2.2.1, hx.2.2.2.1, hr.2.2.1,
      List.append_nil]
    rfl
  have hne := perLevel_counter_ne_total level
  refine ⟨_, log_trace_of_accepted l env level msg ctx w h, ?_, ?_⟩
  · intro hen
    rw [hmet, hpm]
    simp only [hen, if_true]
    refine ⟨trivial, ?_, ?_, ?_⟩
    · rw [PrometheusManager.counter_IncrementMetric, if_neg hne,
        PrometheusManager.counter_IncrementMetric, if_pos rfl]
    · rw [PrometheusManager.counter_IncrementMetric, if_pos rfl,
        PrometheusManager.counter_IncrementMetric, if_neg (Ne.symm hne)]
    · intro c hc1 hc2
      rw [PrometheusManager.counter_IncrementMetric, if_neg (Ne.symm hc2),
        PrometheusManager.counter_IncrementMetric, if_neg (Ne.symm hc1)]
  · intro hen
    rw [hmet, hpm]
    simp [hen]

/-- C7, on an enabled sink that already counts 4 logs: one accepted INFO call brings
`logs_total` to 5 and `logs_total_INFO` to 1, and leaves `logs_total_WARN` at 0. -/
theorem log_metrics_step_witness :
    logLevels.index INFO ≥ logLevels.index sampleLogger.level
      ∧ (∃ new : List (Event Nat String),
          (sampleLogger.log sampleEnv INFO "m" []
              { sampleWorld with pm := { enabled := true, counters := [("logs_total", 4)] } }).trace
            = ({ sampleWorld with
                  pm := { enabled := true, counters := [("logs_total", 4)] } }
                : World Nat String).trace ++ new
          ∧ metricsOf new = [("logs_total", 1), ("logs_total_" ++ INFO, 1)])
      ∧ (sampleLogger.log sampleEnv INFO "m" []
          { sampleWorld with pm := { enabled := true, counters := [("logs_total", 4)] } }).pm.counter
            "logs_total" = 5
      ∧ (sampleLogger.log sampleEnv INFO "m" []
          { sampleWorld with pm := { enabled := true, counters := [("logs_total", 4)] } }).pm.counter
            "logs_total_INFO" = 1
      ∧ (sampleLogger.log sampleEnv INFO "m" []
          { sampleWorld with pm := { enabled := true, counters := [("logs_total", 4)] } }).pm.counter
            "logs_total_WARN" = 0 :=
  ⟨by decide,
    (log_metrics_step sampleLogger sampleEnv INFO "m" []
      { sampleWorld with pm := { enabled := true, counters := [("logs_total", 4)] } }
      (by decide)).imp (fun _ hnew => ⟨hnew.1, (hnew.2.1 rfl).1⟩),
    by decide, by decide, by decide⟩

/-- C8: whatever the threshold, a FATAL call runs the whole pipeline and exits last: the
new events are one write, one `Notify` per notifier with the written entry, the report of
a failed write if any, the metrics step, and then `os.Exit(1)` as the final event; and a
call at any level other than FATAL adds no exit event. -/
theorem log_fatal_exits_after_pipeline {N V : Type} (l : Logger N V) (env : CallEnv)
    (msg : String) (ctx : GoMap V) (w : World N V) :
    (∃ (mid : List (Event N V)) (e : LogEntry V),
        (l.log env FATAL msg ctx w).trace = w.trace ++ (mid ++ [Event.exit 1])
          ∧ writesOf mid = [e]
          ∧ notifiesOf mid = l.notifiers.map (fun n => (n, e))
          ∧ reportsOf mid = (l.writer.Write e).toList
          ∧ metricsOf mid
              = (if w.pm.enabled then [("logs_total", 1), ("logs_total_" ++ FATAL, 1)]
                else [])
          ∧ exitsOf mid = []
          ∧ (l.log env FATAL msg ctx w).pm
              = (if w.pm.enabled then
                  (w.pm.IncrementMetric "logs_total" 1).IncrementMetric
                    ("logs_total_" ++ FATAL) 1
                else w.pm))
      ∧ (∀ level, level ≠ FATAL →
          exitsOf (l.log env level msg ctx w).trace = exitsOf w.trace) := by
  have hacc : logLevels.index FATAL ≥ logLevels.index l.level := by
    rw [logLevels_index_fatal]
    exact logLevels_index_le_five l.level
  have hm := @views_metricEvents N V w.pm.enabled
  have hx := @views_exitEvents N V
  have hr := @views_reportEvents N V
  refine ⟨⟨[Event.clock, Event.callerInfo, Event.write (l.buildEntry env FATAL msg ctx)]
      ++ reportEvents (l.writer.Write (l.buildEntry env FATAL msg ctx))
      ++ l.notifiers.map (fun n => Event.notify n (l.buildEntry env FATAL msg ctx))
      ++ metricEvents w.pm.enabled FATAL,
    l.buildEntry env FATAL msg ctx, ?_, ?_, ?_, ?_, ?_, ?_,
    log_pm_of_accepted l env FATAL msg ctx w hacc⟩, ?_⟩
  · rw [log_trace_of_accepted l env FATAL msg ctx w hacc]
    simp [exitEvents]
  · simp only [writesOf_append, writesOf_map_notify, (hm FATAL).1, (hr _).1, List.append_nil]
    rfl
  · simp only [notifiesOf_append, notifiesOf_map_notify, (hm FATAL).2.1, (hr _).2.1,
      List.append_nil]
    rfl
  · simp only [reportsOf_append, reportsOf_map_notify, (hm FATAL).2.2.1, (hr _).2.2.2.2.1,
      List.append_nil]
    cases l.writer.Write (l.buildEntry env FATAL msg ctx) <;> rfl
  · simp only [metricsOf_append, metricsOf_map_notify, (hm FATAL).2.2.2.2.1, (hr _).2.2.1,
      List.append_nil]
    rfl
  · simp only [exitsOf_append, exitsOf_map_notify, (hm FATAL).2.2.2.1, (hr _).2.2.2.1,
      List.append_nil]
    rfl
  · intro level hne
    by_cases h : logLevels.index level ≥ logLevels.index l.level
    · rw [log_trace_of_accepted l env level msg ctx w h]
      simp only [exitsOf_append, exitsOf_map_notify, (hm level).2.2.2.1, (hr _).2.2.2.1,
        (hx level).2.2.2.2.1, if_neg hne, List.append_nil]
      have he : exitsOf ([Event.clock, Event.callerInfo,
          Event.write (l.buildEntry env level msg ctx)] : List (Event N V)) = [] := rfl
      rw [he, List.append_nil]
    · have hs : l.shouldLog level = false := by
        simp only [Logger.shouldLog, decide_eq_false_iff_not]
        exact h
      have hw : l.log env level msg ctx w = w := by
        unfold Logger.log
        simp [hs]
      rw [hw]

/-- C8, on a logger with threshold FATAL whose writer fails: the FATAL call still writes,
reports, notifies 7 and 9, counts, and exits with status 1 as its last effect; an ERROR
call on the sample logger does not exit. -/
theorem log_fatal_exits_after_pipeline_witness :
    (({ brokenLogger with level := FATAL }.log sampleEnv FATAL "boom" []
        sampleWorld).trace
      = [Event.clock, Event.callerInfo,
          Event.write ({ brokenLogger with level := FATAL }.buildEntry sampleEnv FATAL "boom" []),
          Event.report "disk full",
          Event.notify 7 ({ brokenLogger with level := FATAL }.buildEntry sampleEnv FATAL "boom" []),
          Event.notify 9 ({ brokenLogger with level := FATAL }.buildEntry sampleEnv FATAL "boom" []),
          Event.metric "logs_total" 1, Event.metric "logs_total_FATAL" 1, Event.exit 1])
      ∧ "ERROR" ≠ FATAL
      ∧ exitsOf (sampleLogger.log sampleEnv "ERROR" "boom" [] sampleWorld).trace
          = exitsOf sampleWorld.trace :=
  ⟨by decide, by decide,
    (log_fatal_exits_after_pipeline sampleLogger sampleEnv "boom" [] sampleWorld).2 "ERROR"
      (by decide)⟩

/-- C9 as stated fails: with the severities the filter looks up, the chain
DEBUG < NOTICE < INFO < SUCCESS < WARN < ERROR < FATAL does not hold. NOTICE and SUCCESS
have no entry in `logLevels`, so both are looked up as 0, which is neither above DEBUG
nor above INFO. -/
theorem logLevels_chain_with_notice_success_fails :
    ¬ (logLevels.index DEBUG < logLevels.index NOTICE
        ∧ logLevels.index NOTICE < logLevels.index INFO
        ∧ logLevels.index INFO < logLevels.index SUCCESS
        ∧ logLevels.index SUCCESS < logLevels.index WARN
        ∧ logLevels.index WARN < logLevels.index ERROR
        ∧ logLevels.index ERROR < logLevels.index FATAL)
      ∧ ¬ (logLevels.index DEBUG < logLevels.index NOTICE)
      ∧ ¬ (logLevels.index INFO < logLevels.index SUCCESS) := by
  decide

/-- C9, amended: the severity used for filtering is strictly increasing along
DEBUG < INFO < WARN < ERROR < FATAL, with the values 1, 2, 3, 4, 5; `logLevels` has no
entry for any other level, NOTICE and SUCCESS included, so the severity the filter looks
up for such a level is 0; and `shouldLog` compares exactly these looked-up severities. -/
theorem logLevels_strictly_increasing_on_listed :
    logLevels.index DEBUG = 1 ∧ logLevels.index INFO = 2 ∧ logLevels.index WARN = 3
      ∧ logLevels.index ERROR = 4 ∧ logLevels.index FATAL = 5
      ∧ logLevels.index DEBUG < logLevels.index INFO
      ∧ logLevels.index INFO < logLevels.index WARN
      ∧ logLevels.index WARN < logLevels.index ERROR
      ∧ logLevels.index ERROR < logLevels.index FATAL
      ∧ (∀ level : LogLevel, level ≠ DEBUG → level ≠ INFO → level ≠ WARN → level ≠ ERROR →
          level ≠ FATAL → logLevels.get level = none ∧ logLevels.index level = 0)
      ∧ logLevels.index NOTICE = 0 ∧ logLevels.index SUCCESS = 0
      ∧ (∀ (N V : Type) (l : Logger N V) (level : LogLevel),
          l.shouldLog level = true ↔ logLevels.index level ≥ logLevels.index l.level) := by
  refine ⟨by decide, by decide, by decide, by decide, by decide, by decide, by decide,
    by decide, by decide, logLevels_index_of_unlisted, by decide, by decide, ?_⟩
  intro N V l level
  simp [Logger.shouldLog]

/-- C13: whatever the configuration, `NewLogger` registers a notifier exactly when one
of its two delivery targets (external URL, message-queue endpoint) is non-empty: with
both empty the notifier list is empty, otherwise it holds exactly one notifier, the one
built from these two targets. The Discord webhook argument plays no part. -/
theorem NewLogger_registers_active_notifier {σ V : Type} (host : Host σ V)
    (level : LogLevel) (format outputPath externalURL zmqEndpoint discordWebhook : String) :
    ((NewLogger host level format outputPath externalURL zmqEndpoint
          discordWebhook).1.notifiers ≠ []
        ↔ (externalURL ≠ "" ∨ zmqEndpoint ≠ ""))
      ∧ (externalURL = "" ∧ zmqEndpoint = "" →
          (NewLogger host level format outputPath externalURL zmqEndpoint
            discordWebhook).1.notifiers = [])
      ∧ (externalURL ≠ "" ∨ zmqEndpoint ≠ "" →
          (NewLogger host level format outputPath externalURL zmqEndpoint
              discordWebhook).1.notifiers
            = [NewExternalNotifier externalURL zmqEndpoint]
          ∧ (NewLogger host level format outputPath externalURL zmqEndpoint
              discordWebhook).1.notifiers.length = 1) := by
  have hn : (NewLogger host level format outputPath externalURL zmqEndpoint
        discordWebhook).1.notifiers
      = if externalURL ≠ "" ∨ zmqEndpoint ≠ "" then
          [NewExternalNotifier externalURL zmqEndpoint]
        else [] := by
    unfold NewLogger
    by_cases hact : externalURL ≠ "" ∨ zmqEndpoint ≠ ""
    · simp only [if_pos hact]
      rfl
    · simp only [if_neg hact]
  rw [hn]
  by_cases hact : externalURL ≠ "" ∨ zmqEndpoint ≠ ""
  · rw [if_pos hact]
    refine ⟨⟨fun _ => hact, fun _ => by simp⟩, ?_, fun _ => ⟨rfl, rfl⟩⟩
    intro hboth
    rcases hact with h | h
    · exact absurd hboth.1 h
    · exact absurd hboth.2 h
  · rw [if_neg hact]
    exact ⟨⟨fun h => absurd rfl h, fun h => absurd h hact⟩, fun _ => rfl,
      fun h => absurd h hact⟩

/-- C13, on three configurations: no target gives no notifier, also when a Discord
webhook is given; an external URL alone, or a queue endpoint alone, gives one notifier. -/
theorem NewLogger_registers_active_notifier_witness :
    (NewLogger sampleHost INFO "text" "stdout" "" "" "https://discord.test/hook").1.notifiers
        = []
      ∧ (NewLogger sampleHost INFO "text" "stdout" "https://example.test" "" "").1.notifiers
        = [NewExternalNotifier "https://example.test" ""]
      ∧ (NewLogger sampleHost INFO "json" "app.log" "" "tcp://q:5555" "").1.notifiers
        = [NewExternalNotifier "" "tcp://q:5555"] :=
  ⟨(NewLogger_registers_active_notifier sampleHost INFO "text" "stdout" "" ""
      "https://discord.test/hook").2.1 ⟨rfl, rfl⟩,
    ((NewLogger_registers_active_notifier sampleHost INFO "text" "stdout"
      "https://example.test" "" "").2.2 (Or.inl (by decide))).1,
    by decide⟩

/-- C14: `ParseLogLevel` returns DEBUG, INFO, WARN, ERROR, FATAL for the strings "debug",
"info", "warn", "error", "fatal", and INFO for every other string, the empty string and
names in another case included; so DEBUG, WARN, ERROR and FATAL come from exactly one
string each. -/
theorem ParseLogLevel_table :
    ParseLogLevel "debug" = DEBUG ∧ ParseLogLevel "info" = INFO
      ∧ ParseLogLevel "warn" = WARN ∧ ParseLogLevel "error" = ERROR
      ∧ ParseLogLevel "fatal" = FATAL
      ∧ (∀ s : String, s ≠ "debug" → s ≠ "info" → s ≠ "warn" → s ≠ "error" → s ≠ "fatal" →
          ParseLogLevel s = INFO)
      ∧ ParseLogLevel "" = INFO ∧ ParseLogLevel "DEBUG" = INFO ∧ ParseLogLevel "Warn" = INFO
      ∧ (∀ s : String, ParseLogLevel s = DEBUG ↔ s = "debug")
      ∧ (∀ s : String, ParseLogLevel s = WARN ↔ s = "warn")
      ∧ (∀ s : String, ParseLogLevel s = ERROR ↔ s = "error")
      ∧ (∀ s : String, ParseLogLevel s = FATAL ↔ s = "fatal")
      ∧ (∀ s : String, ParseLogLevel s = INFO
          ↔ (s ≠ "debug" ∧ s ≠ "warn" ∧ s ≠ "error" ∧ s ≠ "fatal")) := by
  have hcases : ∀ s : String,
      (s = "debug" ∧ ParseLogLevel s = DEBUG) ∨ (s = "info" ∧ ParseLogLevel s = INFO)
        ∨ (s = "warn" ∧ ParseLogLevel s = WARN) ∨ (s = "error" ∧ ParseLogLevel s = ERROR)
        ∨ (s = "fatal" ∧ ParseLogLevel s = FATAL)
        ∨ (s ≠ "debug" ∧ s ≠ "info" ∧ s ≠ "warn" ∧ s ≠ "error" ∧ s ≠ "fatal"
            ∧ ParseLogLevel s = INFO) := by
    intro s
    unfold ParseLogLevel
    by_cases h1 : s = "debug"
    · exact Or.inl ⟨h1, by rw [if_pos h1]⟩
    by_cases h2 : s = "info"
    · exact Or.inr (Or.inl ⟨h2, by rw [if_neg h1, if_pos h2]⟩)
    by_cases h3 : s = "warn"
    · exact Or.inr (Or.inr (Or.inl ⟨h3, by rw [if_neg h1, if_neg h2, if_pos h3]⟩))
    by_cases h4 : s = "error"
    · exact Or.inr (Or.inr (Or.inr (Or.inl
        ⟨h4, by rw [if_neg h1, if_neg h2, if_neg h3, if_pos h4]⟩)))
    by_cases h5 : s = "fatal"
    · exact Or.inr (Or.inr (Or.inr (Or.inr (Or.inl
        ⟨h5, by rw [if_neg h1, if_neg h2, if_neg h3, if_neg h4, if_pos h5]⟩))))
    · exact Or.inr (Or.inr (Or.inr (Or.inr (Or.inr
        ⟨h1, h2, h3, h4, h5,
          by rw [if_neg h1, if_neg h2, if_neg h3, if_neg h4, if_neg h5]⟩))))
  have hDI : DEBUG ≠ INFO := by decide
  have hDW : DEBUG ≠ WARN := by decide
  have hDE : DEBUG ≠ ERROR := by decide
  have hDF : DEBUG ≠ FATAL := by decide
  have hIW : INFO ≠ WARN := by decide
  have hIE : INFO ≠ ERROR := by decide
  have hIF : INFO ≠ FATAL := by decide
  have hWE : WARN ≠ ERROR := by decide
  have hWF : WARN ≠ FATAL := by decide
  have hEF : ERROR ≠ FATAL := by decide
  refine ⟨by decide, by decide, by decide, by decide, by decide, ?_, by decide, by decide,
    by decide, ?_, ?_, ?_, ?_, ?_⟩
  · intro s h1 h2 h3 h4 h5
    rcases hcases s with h | h | h | h | h | h
    · exact absurd h.1 h1
    · exact h.2
    · exact absurd h.1 h3
    · exact absurd h.1 h4
    · exact absurd h.1 h5
    · exact h.2.2.2.2.2
  · intro s
    rcases hcases s with h | h | h | h | h | h
    · exact ⟨fun _ => h.1, fun _ => h.2⟩
    · exact ⟨fun e => absurd (h.2.symm.trans e) (Ne.symm hDI), fun e => by rw [e]; decide⟩
    · exact ⟨fun e => absurd (h.2.symm.trans e) (Ne.symm hDW), fun e => by rw [e]; decide⟩
    · exact ⟨fun e => absurd (h.2.symm.trans e) (Ne.symm hDE), fun e => by rw [e]; decide⟩
    · exact ⟨fun e => absurd (h.2.symm.trans e) (Ne.symm hDF), fun e => by rw [e]; decide⟩
    · exact ⟨fun e => absurd (h.2.2.2.2.2.symm.trans e) (Ne.symm hDI),
        fun e => absurd e h.1⟩
  · intro s
    rcases hcases s with h | h | h | h | h | h
    · exact ⟨fun e => absurd (h.2.symm.trans e) hDW, fun e => by rw [e]; decide⟩
    · exact ⟨fun e => absurd (h.2.symm.trans e) hIW, fun e => by rw [e]; decide⟩
    · exact ⟨fun _ => h.1, fun _ => h.2⟩
    · exact ⟨fun e => absurd (h.2.symm.trans e) (Ne.symm hWE), fun e => by rw [e]; decide⟩
    · exact ⟨fun e => absurd (h.2.symm.trans e) (Ne.symm hWF), fun e => by rw [e]; decide⟩
    · exact ⟨fun e => absurd (h.2.2.2.2.2.symm.trans e) hIW, fun e => absurd e h.2.2.1⟩
  · intro s
    rcases hcases s with h | h | h | h | h | h
    · exact ⟨fun e => absurd (h.2.symm.trans e) hDE, fun e => by rw [e]; decide⟩
    · exact ⟨fun e => absurd (h.2.symm.trans e) hIE, fun e => by rw [e]; decide⟩
    · exact ⟨fun e => absurd (h.2.symm.trans e) hWE, fun e => by rw [e]; decide⟩
    · exact ⟨fun _ => h.1, fun _ => h.2⟩
    · exact ⟨fun e => absurd (h.2.symm.trans e) (Ne.symm hEF), fun e => by rw [e]; decide⟩
    · exact ⟨fun e => absurd (h.2.2.2.2.2.symm.trans e) hIE, fun e => absurd e h.2.2.2.1⟩
  · intro s
    rcases hcases s with h | h | h | h | h | h
    · exact ⟨fun e => absurd (h.2.symm.trans e) hDF, fun e => by rw [e]; decide⟩
    · exact ⟨fun e => absurd (h.2.symm.trans e) hIF, fun e => by rw [e]; decide⟩
    · exact ⟨fun e => absurd (h.2.symm.trans e) hWF, fun e => by rw [e]; decide⟩
    · exact ⟨fun e => absurd (h.2.symm.trans e) hEF, fun e => by rw [e]; decide⟩
    · exact ⟨fun _ => h.1, fun _ => h.2⟩
    · exact ⟨fun e => absurd (h.2.2.2.2.2.symm.trans e) hIF,
        fun e => absurd e h.2.2.2.2.1⟩
  · intro s
    rcases hcases s with h | h | h | h | h | h
    · exact ⟨fun e => absurd (h.2.symm.trans e) hDI, fun e => absurd h.1 e.1⟩
    · refine ⟨fun _ => ?_, fun _ => h.2⟩
      rw [h.1]
      decide
    · exact ⟨fun e => absurd (h.2.symm.trans e) (Ne.symm hIW), fun e => absurd h.1 e.2.1⟩
    · exact ⟨fun e => absurd (h.2.symm.trans e) (Ne.symm hIE), fun e => absurd h.1 e.2.2.1⟩
    · exact ⟨fun e => absurd (h.2.symm.trans e) (Ne.symm hIF), fun e => absurd h.1 e.2.2.2⟩
    · exact ⟨fun _ => ⟨h.1, h.2.2.1, h.2.2.2.1, h.2.2.2.2.1⟩, fun _ => h.2.2.2.2.2⟩

/-- C12: whatever the entry and the content of the sink, `DefaultWriter.Write` on an
appending sink adds the rendered text followed by one newline, and nothing else, when the
formatter succeeds; when the formatter returns an error, `Write` returns that error and
the sink is as before. On any `io.Writer`, the text and its newline go out in one `Write`
call, and a formatter error leaves the sink untouched. -/
theorem DefaultWriter_Write_appends_one_line {V : Type} (formatter : LogFormatter V)
    (entry : LogEntry V) (content : String) :
    (∀ text, formatter.Format entry = (text, none) →
        (NewDefaultWriter appendSink formatter).Write entry content
          = (content ++ text ++ "\n", none))
      ∧ (∀ text err, formatter.Format entry = (text, some err) →
        (NewDefaultWriter appendSink formatter).Write entry content = (content, some err))
      ∧ (∀ (σ : Type) (out : IoWriter σ) (sink : σ) (text : String),
        formatter.Format entry = (text, none) →
        (NewDefaultWriter out formatter).Write entry sink = out.Write sink (text ++ "\n"))
      ∧ (∀ (σ : Type) (out : IoWriter σ) (sink : σ) (text err : String),
        formatter.Format entry = (text, some err) →
        (NewDefaultWriter out formatter).Write entry sink = (sink, some err)) := by
  have hok : ∀ (σ : Type) (out : IoWriter σ) (sink : σ) (text : String),
      formatter.Format entry = (text, none) →
      (NewDefaultWriter out formatter).Write entry sink = out.Write sink (text ++ "\n") := by
    intro σ out sink text h
    unfold DefaultWriter.Write NewDefaultWriter
    simp only [h]
    rfl
  have herr : ∀ (σ : Type) (out : IoWriter σ) (sink : σ) (text err : String),
      formatter.Format entry = (text, some err) →
      (NewDefaultWriter out formatter).Write entry sink = (sink, some err) := by
    intro σ out sink text err h
    unfold DefaultWriter.Write NewDefaultWriter
    simp only [h]
  refine ⟨?_, ?_, hok, herr⟩
  · intro text h
    rw [hok String appendSink content text h]
    show (content ++ (text ++ "\n"), (none : Option String)) = (content ++ text ++ "\n", none)
    rw [String.append_assoc]
  · intro text err h
    exact herr String appendSink content text err h

/-- C12, on the text formatter and on a formatter that fails: after one line already in
the sink, the rendering of the sample entry is added with its newline; the failing
formatter leaves the sink as it was and its error is returned. -/
theorem DefaultWriter_Write_appends_one_line_witness :
    (NewDefaultWriter appendSink { Format := TextFormatter.Format plainPlatform }).Write
        plainEntry "first line\n"
      = ("first line\n" ++ (TextFormatter.Format plainPlatform plainEntry).1 ++ "\n", none)
      ∧ (NewDefaultWriter appendSink failingFormatter).Write plainEntry "first line\n"
      = ("first line\n", some "json: unsupported type") :=
  ⟨(DefaultWriter_Write_appends_one_line { Format := TextFormatter.Format plainPlatform }
      plainEntry "first line\n").1 _ rfl,
    by decide⟩

/-- C10: for every entry, the output of `TextFormatter.Format` with no-colour active is
byte-identical to the output in coloured mode after removing the ANSI escape sequences
and the icon glyph that `Format` adds for the level; both calls succeed. The two outputs
share the text before the icon and the text after the level name. -/
theorem format_noColor_eq_strip_colored {V : Type} (pc pn : Platform V) (e : LogEntry V)
    (hc : pc.noColor = false) (hn : pn.noColor = true)
    (htime : pn.formatRFC3339 = pc.formatRFC3339) (hjson : pn.jsonMarshal = pc.jsonMarshal) :
    stripDecorations pc e (TextFormatter.Format pc e).1 = (TextFormatter.Format pn e).1
      ∧ (TextFormatter.Format pc e).2 = none
      ∧ (TextFormatter.Format pn e).2 = none
      ∧ (∃ head tail : String,
          (TextFormatter.Format pc e).1
              = head ++ (levelColor e.Level ++ levelIcon e.Level ++ ansiReset) ++ " "
                ++ (levelColor e.Level ++ e.Level ++ ansiReset) ++ tail
            ∧ (TextFormatter.Format pn e).1 = head ++ "" ++ " " ++ e.Level ++ tail) := by
  have hfm : formatMetadata pn e.Metadata = formatMetadata pc e.Metadata := by
    unfold formatMetadata
    rw [hjson]
  have hcol : (TextFormatter.Format pc e).1
      = "[" ++ pc.formatRFC3339 e.Timestamp ++ "] "
        ++ (levelColor e.Level ++ levelIcon e.Level ++ ansiReset) ++ " "
        ++ (levelColor e.Level ++ e.Level ++ ansiReset)
        ++ " - " ++ e.Message ++ " "
        ++ (if e.Context ≠ "" then "(Context: " ++ e.Context ++ ")" else "")
        ++ (if e.Metadata.len > 0 then
            "\n" ++ repeatSpace ((pc.formatRFC3339 e.Timestamp).utf8ByteSize + 3) ++ " "
              ++ formatMetadata pc e.Metadata
          else "") := by
    unfold TextFormatter.Format
    simp only [hc, Bool.false_eq_true, if_false, decoration_eq]
    rfl
  have hpl : (TextFormatter.Format pn e).1
      = "[" ++ pc.formatRFC3339 e.Timestamp ++ "] " ++ "" ++ " " ++ e.Level
        ++ " - " ++ e.Message ++ " "
        ++ (if e.Context ≠ "" then "(Context: " ++ e.Context ++ ")" else "")
        ++ (if e.Metadata.len > 0 then
            "\n" ++ repeatSpace ((pc.formatRFC3339 e.Timestamp).utf8ByteSize + 3) ++ " "
              ++ formatMetadata pc e.Metadata
          else "") := by
    unfold TextFormatter.Format
    simp only [hn, htime, hfm, if_true]
  generalize (if e.Context ≠ "" then "(Context: " ++ e.Context ++ ")" else "") = cm
    at hcol hpl
  generalize (if e.Metadata.len > 0 then
            "\n" ++ repeatSpace ((pc.formatRFC3339 e.Timestamp).utf8ByteSize + 3) ++ " "
              ++ formatMetadata pc e.Metadata
          else "") = md at hcol hpl
  refine ⟨?_, rfl, rfl, "[" ++ pc.formatRFC3339 e.Timestamp ++ "] ",
    " - " ++ e.Message ++ " " ++ cm ++ md, ?_, ?_⟩
  · rw [hcol, hpl]
    apply String.ext
    have hskip : (pc.formatRFC3339 e.Timestamp).length + 3
        = (("[" ++ pc.formatRFC3339 e.Timestamp ++ "] " : String).data).length := by
      show _ = (("[" : String).data ++ (pc.formatRFC3339 e.Timestamp).data
        ++ ("] " : String).data).length
      rw [List.length_append, List.length_append]
      show _ = 1 + (pc.formatRFC3339 e.Timestamp).length + 2
      omega
    have hlen : e.Level.length = e.Level.data.length := rfl
    have hdata := removeDecorationsAt_decorated
      (("[" ++ pc.formatRFC3339 e.Timestamp ++ "] " : String).data)
      (levelColor e.Level).data (levelIcon e.Level).data e.Level.data
      ((" - " ++ e.Message ++ " " ++ cm ++ md : String).data)
    unfold stripDecorations
    rw [hskip, hlen]
    simp only [String.data_append, List.append_assoc] at hdata ⊢
    exact hdata
  · rw [hcol]
    simp only [String.append_assoc]
  · rw [hpl]
    simp only [String.append_assoc]

/-- C10, on an INFO entry whose message itself starts with a glyph: the coloured line
loses the colour codes, the level icon and the resets, and keeps the glyph of the
message, which gives the no-colour line byte for byte. -/
theorem format_noColor_eq_strip_colored_witness :
    colorPlatform.noColor = false ∧ plainPlatform.noColor = true
      ∧ stripDecorations colorPlatform crossEntry (TextFormatter.Format colorPlatform crossEntry).1
          = (TextFormatter.Format plainPlatform crossEntry).1
      ∧ (TextFormatter.Format colorPlatform crossEntry).1
          = "[2023-11-14T22:13:20Z] \x1b[32mℹ️\x1b[0m \x1b[32mINFO\x1b[0m - ❌ build failed "
      ∧ (TextFormatter.Format plainPlatform crossEntry).1
          = "[2023-11-14T22:13:20Z]  INFO - ❌ build failed "
      ∧ stripDecorations colorPlatform plainEntry (TextFormatter.Format colorPlatform plainEntry).1
          = "[2023-11-14T22:13:20Z]  WARN - disk almost full (Context: job-7)\n                        [metadata]" :=
  ⟨by decide, by decide,
    (format_noColor_eq_strip_colored colorPlatform plainPlatform crossEntry (by decide)
      (by decide) rfl rfl).1,
    by decide, by decide, by decide⟩

/-- C11: the claim fails on an entry whose metadata holds a value that `json.Marshal`
rejects. The metadata is non-empty and `TextFormatter.Format` returns no error, but the
second line is only the newline and the indentation: `formatMetadata` has dropped the
error and, with it, all the metadata, also the key that can be rendered. On the same
entry `JSONFormatter.Format` returns the error of `json.Marshal`. -/
theorem format_second_line_without_json :
    chanEntry.Metadata.len > 0
      ∧ chanPlatform.jsonMarshal chanEntry.Metadata = none
      ∧ TextFormatter.Format chanPlatform chanEntry
          = ("[2023-11-14T22:13:20Z]  INFO - started \n                        ", none)
      ∧ JSONFormatter.Format sampleMarshalEntry chanEntry
          = ("", some "json: unsupported type: chan")
      ∧ TextFormatter.Format chanPlatform mixedEntry
          = ("[2023-11-14T22:13:20Z]  INFO - started \n                        ", none)
      ∧ ¬ (∃ json : String, chanPlatform.jsonMarshal chanEntry.Metadata = some json
            ∧ (TextFormatter.Format chanPlatform chanEntry).1
              = "[2023-11-14T22:13:20Z]  INFO - started " ++ "\n" ++ repeatSpace 23 ++ " "
                ++ json) := by
  refine ⟨by decide, by decide, by decide, by decide, by decide, ?_⟩
  rintro ⟨json, hjson, _⟩
  have hnone : chanPlatform.jsonMarshal chanEntry.Metadata = none := by decide
  rw [hnone] at hjson
  exact Option.noConfusion hjson

/-- The shape of the line `TextFormatter.Format` returns, as C11 describes it, wherever
`json.Marshal` renders the metadata: `Format` succeeds and returns
`[<RFC3339 timestamp>] <icon> <level> - <message> (Context: <context>)`, the
`(Context: ...)` part only for a non-empty context, followed by a second line if and only
if the metadata is non-empty, made of a newline, the indentation and the JSON of the
metadata. With empty metadata the output is the first line alone, and holds no newline
unless the timestamp, level, message or context holds one. -/
theorem TextFormatter_Format_shape {V : Type} (p : Platform V) (e : LogEntry V) :
    (TextFormatter.Format p e).2 = none
      ∧ (∃ icon levelStr firstLine : String,
          (p.noColor = true → icon = "" ∧ levelStr = e.Level)
            ∧ (p.noColor = false → ∃ color glyph : String,
                icon = color ++ glyph ++ "\x1b[0m"
                  ∧ levelStr = color ++ e.Level ++ "\x1b[0m")
            ∧ firstLine = "[" ++ p.formatRFC3339 e.Timestamp ++ "] " ++ icon ++ " "
                ++ levelStr ++ " - " ++ e.Message ++ " "
                ++ (if e.Context ≠ "" then "(Context: " ++ e.Context ++ ")" else "")
            ∧ (e.Metadata.len = 0 → (TextFormatter.Format p e).1 = firstLine)
            ∧ (e.Metadata.len > 0 → ∀ json, p.jsonMarshal e.Metadata = some json →
                (TextFormatter.Format p e).1
                  = firstLine ++ ("\n"
                      ++ repeatSpace ((p.formatRFC3339 e.Timestamp).utf8ByteSize + 3) ++ " "
                      ++ json))
            ∧ (e.Metadata.len = 0 → '\n' ∉ (p.formatRFC3339 e.Timestamp).data →
                '\n' ∉ e.Level.data → '\n' ∉ e.Message.data → '\n' ∉ e.Context.data →
                '\n' ∉ (TextFormatter.Format p e).1.data))
      ∧ (e.Metadata.len > 0 ↔ ∃ k, e.Metadata.get k ≠ none) := by
  refine ⟨rfl, ?_, GoMap.len_pos_iff e.Metadata⟩
  have hform : (TextFormatter.Format p e).1
      = "[" ++ p.formatRFC3339 e.Timestamp ++ "] "
        ++ (if p.noColor = true then (("", e.Level) : String × String)
            else
              ((if e.Level = DEBUG then ("\x1b[34m", "🐛")
                else if e.Level = INFO then ("\x1b[32m", "ℹ️")
                else if e.Level = WARN then ("\x1b[33m", "⚠️")
                else if e.Level = ERROR then ("\x1b[31m", "❌")
                else if e.Level = FATAL then ("\x1b[35m", "💀")
                else (("", "") : String × String)).1
                ++ (if e.Level = DEBUG then ("\x1b[34m", "🐛")
                else if e.Level = INFO then ("\x1b[32m", "ℹ️")
                else if e.Level = WARN then ("\x1b[33m", "⚠️")
                else if e.Level = ERROR then ("\x1b[31m", "❌")
                else if e.Level = FATAL then ("\x1b[35m", "💀")
                else (("", "") : String × String)).2 ++ "\x1b[0m",
              (if e.Level = DEBUG then ("\x1b[34m", "🐛")
                else if e.Level = INFO then ("\x1b[32m", "ℹ️")
                else if e.Level = WARN then ("\x1b[33m", "⚠️")
                else if e.Level = ERROR then ("\x1b[31m", "❌")
                else if e.Level = FATAL then ("\x1b[35m", "💀")
                else (("", "") : String × String)).1 ++ e.Level ++ "\x1b[0m")).1
        ++ " "
        ++ (if p.noColor = true then (("", e.Level) : String × String)
            else
              ((if e.Level = DEBUG then ("\x1b[34m", "🐛")
                else if e.Level = INFO then ("\x1b[32m", "ℹ️")
                else if e.Level = WARN then ("\x1b[33m", "⚠️")
                else if e.Level = ERROR then ("\x1b[31m", "❌")
                else if e.Level = FATAL then ("\x1b[35m", "💀")
                else (("", "") : String × String)).1
                ++ (if e.Level = DEBUG then ("\x1b[34m", "🐛")
                else if e.Level = INFO then ("\x1b[32m", "ℹ️")
                else if e.Level = WARN then ("\x1b[33m", "⚠️")
                else if e.Level = ERROR then ("\x1b[31m", "❌")
                else if e.Level = FATAL then ("\x1b[35m", "💀")
                else (("", "") : String × String)).2 ++ "\x1b[0m",
              (if e.Level = DEBUG then ("\x1b[34m", "🐛")
                else if e.Level = INFO then ("\x1b[32m", "ℹ️")
                else if e.Level = WARN then ("\x1b[33m", "⚠️")
                else if e.Level = ERROR then ("\x1b[31m", "❌")
                else if e.Level = FATAL then ("\x1b[35m", "💀")
                else (("", "") : String × String)).1 ++ e.Level ++ "\x1b[0m")).2
        ++ " - " ++ e.Message ++ " "
        ++ (if e.Context ≠ "" then "(Context: " ++ e.Context ++ ")" else "")
        ++ (if e.Metadata.len > 0 then
            "\n" ++ repeatSpace ((p.formatRFC3339 e.Timestamp).utf8ByteSize + 3) ++ " "
              ++ formatMetadata p e.Metadata
          else "") := rfl
  have hdec := newline_not_mem_decoration e.Level
  generalize (if e.Level = DEBUG then ("\x1b[34m", "🐛")
          else if e.Level = INFO then ("\x1b[32m", "ℹ️")
          else if e.Level = WARN then ("\x1b[33m", "⚠️")
          else if e.Level = ERROR then ("\x1b[31m", "❌")
          else if e.Level = FATAL then ("\x1b[35m", "💀")
          else (("", "") : String × String)) = cg at hform hdec
  refine ⟨(if p.noColor = true then (("", e.Level) : String × String)
      else (cg.1 ++ cg.2 ++ "\x1b[0m", cg.1 ++ e.Level ++ "\x1b[0m")).1,
    (if p.noColor = true then (("", e.Level) : String × String)
      else (cg.1 ++ cg.2 ++ "\x1b[0m", cg.1 ++ e.Level ++ "\x1b[0m")).2,
    _, ?_, ?_, rfl, ?_, ?_, ?_⟩
  · intro hnc
    rw [if_pos hnc]
    exact ⟨rfl, rfl⟩
  · intro hnc
    have hne : ¬ p.noColor = true := by simp [hnc]
    rw [if_neg hne]
    exact ⟨cg.1, cg.2, rfl, rfl⟩
  · intro hlen
    have hnot : ¬ e.Metadata.len > 0 := by omega
    rw [hform, if_neg hnot, String.append_empty]
  · intro hlen json hjson
    have hne : ¬ e.Metadata.len = 0 := by omega
    rw [hform, if_pos hlen]
    unfold formatMetadata
    rw [if_neg hne, hjson]
  · intro hlen hts hlvl hmsg hctx
    have hnot : ¬ e.Metadata.len > 0 := by omega
    rw [hform, if_neg hnot, String.append_empty]
    have hcm : '\n' ∉ (if e.Context ≠ "" then "(Context: " ++ e.Context ++ ")" else "").data := by
      by_cases hc : e.Context ≠ ""
      · rw [if_pos hc]
        have hp1 : '\n' ∉ ("(Context: " : String).data := by decide
        have hp2 : '\n' ∉ (")" : String).data := by decide
        exact newline_not_mem_append _ _ (newline_not_mem_append _ _ hp1 hctx) hp2
      · rw [if_neg hc]
        decide
    have hreset : '\n' ∉ ("\x1b[0m" : String).data := by decide
    have hicon : '\n' ∉ ((if p.noColor = true then (("", e.Level) : String × String)
        else (cg.1 ++ cg.2 ++ "\x1b[0m", cg.1 ++ e.Level ++ "\x1b[0m")).1).data := by
      by_cases hnc : p.noColor = true
      · rw [if_pos hnc]
        show '\n' ∉ ("" : String).data
        decide
      · rw [if_neg hnc]
        exact newline_not_mem_append _ _ (newline_not_mem_append _ _ hdec.1 hdec.2) hreset
    have hlevel : '\n' ∉ ((if p.noColor = true then (("", e.Level) : String × String)
        else (cg.1 ++ cg.2 ++ "\x1b[0m", cg.1 ++ e.Level ++ "\x1b[0m")).2).data := by
      by_cases hnc : p.noColor = true
      · rw [if_pos hnc]
        exact hlvl
      · rw [if_neg hnc]
        exact newline_not_mem_append _ _ (newline_not_mem_append _ _ hdec.1 hlvl) hreset
    have hb1 : '\n' ∉ ("[" : String).data := by decide
    have hb2 : '\n' ∉ ("] " : String).data := by decide
    have hb3 : '\n' ∉ (" " : String).data := by decide
    have hb4 : '\n' ∉ (" - " : String).data := by decide
    have s1 := newline_not_mem_append _ _ hb1 hts
    have s2 := newline_not_mem_append _ _ s1 hb2
    have s3 := newline_not_mem_append _ _ s2 hicon
    have s4 := newline_not_mem_append _ _ s3 hb3
    have s5 := newline_not_mem_append _ _ s4 hlevel
    have s6 := newline_not_mem_append _ _ s5 hb4
    have s7 := newline_not_mem_append _ _ s6 hmsg
    have s8 := newline_not_mem_append _ _ s7 hb3
    exact newline_not_mem_append _ _ s8 hcm

/-- The shape of the line on an INFO entry with a context and the metadata `k = v`: the
first line, then a newline, the indentation and the JSON object; without metadata the
first line alone. -/
theorem TextFormatter_Format_shape_witness :
    (TextFormatter.Format chanPlatform textEntry).2 = none
      ∧ TextFormatter.Format chanPlatform textEntry
          = ("[2023-11-14T22:13:20Z]  INFO - started (Context: job-7)\n                        \x7b\"k\":\"v\"\x7d",
            none)
      ∧ TextFormatter.Format chanPlatform { textEntry with Metadata := [] }
          = ("[2023-11-14T22:13:20Z]  INFO - started (Context: job-7)", none)
      ∧ (textEntry.Metadata.len > 0 ↔ ∃ k, textEntry.Metadata.get k ≠ none) :=
  ⟨(TextFormatter_Format_shape chanPlatform textEntry).1, by decide, by decide,
    (TextFormatter_Format_shape chanPlatform textEntry).2.2⟩

end Logz
